import Mathlib

/-!
Verification development for the Trashmarket.fun escrow programs.

The repository holds three Anchor programs:

* `gorbagana_bridge` (src/bridge/programs/bridge/src/lib.rs) — the
  bidirectional escrow engine: `create_order`, `fill_order`, `cancel_order`
  over two asset kinds (sGOR SPL token and native gGOR lamports).
* `solana_bridge` (src/bridge-solana/programs/solana-bridge/src/lib.rs) —
  the single-asset variant with identical guard structure.
* `vanity_miner` (src/vanity-miner/programs/vanity-miner/src/lib.rs) —
  the metered balance ledger: `initialize_user`, `deposit`,
  `charge_for_batch`, `withdraw`, `record_match`.

The shallow embedding below models the bidirectional bridge (the general
variant) and the metered ledger.  u64 machine integers are modelled as
`Nat` with explicit `U64MAX` bounds; Rust `checked_add` is `checkedAdd`
returning `Option`; a fallible instruction is a pure function
`State → Except Err State`, so abort-with-no-partial-effect is literal:
an error result carries no state.  Anchor account constraints (PDA `init`
uniqueness, `has_one`, `close`) are executed before / after the handler
body exactly as the Anchor runtime does.  Rent/storage deposits are not
modelled (they are substrate bookkeeping, absent from the source text),
and a Rust panic (from `unwrap` or unchecked `-=`/`+=` lamport
arithmetic) is modelled as the distinguished result `BErr.panicked`,
distinct from every declared `BridgeError` variant.
-/

/-- Largest value of a Rust `u64`. -/
def U64MAX : Nat := 18446744073709551615

/-- Rust `u64::checked_add`: `none` exactly when the sum overflows. -/
def checkedAdd (a b : Nat) : Option Nat :=
  if a + b ≤ U64MAX then some (a + b) else none

/-- Rust `u64::checked_sub`: `none` exactly when the difference underflows. -/
def checkedSub (a b : Nat) : Option Nat :=
  if b ≤ a then some (a - b) else none

/-- Largest value of a Rust `u32` (the type of `matches_found`). -/
def U32MAX : Nat := 4294967295

/-- Rust `u32::checked_add`. -/
def checkedAdd32 (a b : Nat) : Option Nat :=
  if a + b ≤ U32MAX then some (a + b) else none

namespace Bridge

/-- `MIN_ORDER_AMOUNT` from src/bridge lib.rs. -/
def MIN_ORDER_AMOUNT : Nat := 100000

/-- `MAX_EXPIRY_SLOTS` from src/bridge lib.rs. -/
def MAX_EXPIRY_SLOTS : Nat := 216000

/-- Abstract identifier for the hardcoded sGOR mint pubkey. -/
def SGOR_MINT : Nat := 71

/-- Account identities.  `user n` is an ordinary keypair account; the two
PDA constructors mirror the seed derivations
`["order", maker, amount]` and `["escrow", maker, amount]` — deterministic
in exactly the maker identity and the order amount, injective by
constructor. -/
inductive AccountId where
  | user : Nat → AccountId
  | orderPda : AccountId → Nat → AccountId
  | escrowPda : AccountId → Nat → AccountId
deriving DecidableEq, Repr

/-- An SPL token account: its mint, its owner (transfer authority), and
its balance. -/
structure TokenAcct where
  mint : Nat
  owner : AccountId
  amount : Nat
deriving DecidableEq, Repr

/-- The `Order` account state (src/bridge lib.rs, `struct Order`). -/
structure Order where
  maker : AccountId
  amount : Nat
  direction : Nat
  expirationSlot : Nat
  isFilled : Bool
  bump : Nat
deriving DecidableEq, Repr

/-- Events emitted by the three instructions. -/
inductive Event where
  | orderCreated (maker : AccountId) (amount direction expirationSlot : Nat)
  | orderFilled (maker taker : AccountId) (amount direction : Nat)
  | orderCancelled (maker : AccountId) (amount direction : Nat)
deriving DecidableEq, Repr

/-- Ledger state for the bridge program: native lamport balances, SPL
token accounts, the live `Order` accounts, and the emitted event log. -/
structure BState where
  native : AccountId → Nat
  token : AccountId → Option TokenAcct
  orders : List Order
  events : List Event

/-- Error outcomes.  The first fourteen constructors are the program's
declared `BridgeError` variants; `accountAlreadyInUse`,
`accountNotInitialized` and `constraintViolation` are Anchor/runtime
account errors; `splError` is a token-program-internal failure;
`panicked` models a Rust panic (never a typed error code). -/
inductive BErr where
  | invalidAmount
  | invalidDirection
  | invalidMint
  | orderExpired
  | orderAlreadyFilled
  | insufficientFunds
  | unauthorized
  | expirationInPast
  | expirationTooFar
  | missingEscrowTokenAccount
  | missingMakerTokenAccount
  | missingTakerTokenAccount
  | missingTakerReceiveTokenAccount
  | missingMakerReceiveTokenAccount
  | accountAlreadyInUse
  | accountNotInitialized
  | constraintViolation
  | splError
  | panicked
deriving DecidableEq, Repr

/-- Point update of a native balance. -/
def setNative (s : BState) (a : AccountId) (v : Nat) : BState :=
  { s with native := fun x => if x = a then v else s.native x }

/-- Point update of a token account. -/
def setToken (s : BState) (a : AccountId) (t : TokenAcct) : BState :=
  { s with token := fun x => if x = a then some t else s.token x }

/-- `system_program::transfer`: moves `amt` lamports from `src` to `dst`,
failing when `src` lacks the lamports or the credit would overflow u64.
Debit precedes credit so a self-transfer is a no-op. -/
def sysTransfer (s : BState) (src dst : AccountId) (amt : Nat) :
    Except BErr BState :=
  if amt ≤ s.native src then
    let s1 := setNative s src (s.native src - amt)
    if s1.native dst + amt ≤ U64MAX then
      Except.ok (setNative s1 dst (s1.native dst + amt))
    else Except.error BErr.insufficientFunds
  else Except.error BErr.insufficientFunds

/-- `token::transfer`: moves `amt` token units from `src` to `dst` under
`authority`.  The token program requires both accounts to exist, the
source to be owned by the signing authority, the mints to agree, the
source balance to cover `amt`, and the credited balance to fit in u64. -/
def splTransfer (s : BState) (src dst authority : AccountId) (amt : Nat) :
    Except BErr BState :=
  match s.token src, s.token dst with
  | some sa, some da =>
    if sa.owner ≠ authority then Except.error BErr.splError
    else if sa.mint ≠ da.mint then Except.error BErr.splError
    else if amt ≤ sa.amount then
      let s1 := setToken s src { sa with amount := sa.amount - amt }
      match s1.token dst with
      | some da1 =>
        if da1.amount + amt ≤ U64MAX then
          Except.ok (setToken s1 dst { da1 with amount := da1.amount + amt })
        else Except.error BErr.splError
      | none => Except.error BErr.accountNotInitialized
    else Except.error BErr.insufficientFunds
  | _, _ => Except.error BErr.accountNotInitialized

/-- Look up the live order whose PDA seeds are `(maker, amount)`. -/
def findOrder (maker : AccountId) (amount : Nat) :
    List Order → Option Order
  | [] => none
  | o :: rest =>
    if o.maker = maker ∧ o.amount = amount then some o
    else findOrder maker amount rest

/-- Close the order account with PDA seeds `(maker, amount)`: remove the
first (in well-formed states, the only) matching record. -/
def removeOrder (maker : AccountId) (amount : Nat) :
    List Order → List Order
  | [] => []
  | o :: rest =>
    if o.maker = maker ∧ o.amount = amount then rest
    else o :: removeOrder maker amount rest

/-- The `init_if_needed` processing of the optional escrow token account
in `CreateOrder`: when supplied, create it (mint sGOR, authority the
order PDA) if absent, or check the existing account against those
constraints. -/
def escrowInitIfNeeded (s : BState) (maker : AccountId) (amount : Nat)
    (escrowProvided : Bool) : Except BErr BState :=
  if escrowProvided then
    match s.token (AccountId.escrowPda maker amount) with
    | none =>
      Except.ok (setToken s (AccountId.escrowPda maker amount)
        ⟨SGOR_MINT, AccountId.orderPda maker amount, 0⟩)
    | some t =>
      if t.mint = SGOR_MINT ∧ t.owner = AccountId.orderPda maker amount
      then Except.ok s
      else Except.error BErr.constraintViolation
  else Except.ok s

/-- The escrow-deposit block of `create_order` (lines 63–104): direction
0 moves sGOR from the maker token account into the escrow token account
under the maker's own authority; direction 1 moves native lamports from
the maker into the order PDA. -/
def escrowDeposit (s0 : BState) (maker : AccountId) (escrowProvided : Bool)
    (makerTa : Option AccountId) (amount direction : Nat) :
    Except BErr BState :=
  if direction = 0 then
    if escrowProvided then
      match makerTa with
      | none => Except.error BErr.missingMakerTokenAccount
      | some mta =>
        match s0.token mta with
        | none => Except.error BErr.accountNotInitialized
        | some t =>
          if t.mint = SGOR_MINT then
            splTransfer s0 mta (AccountId.escrowPda maker amount) maker amount
          else Except.error BErr.invalidMint
    else Except.error BErr.missingEscrowTokenAccount
  else
    sysTransfer s0 maker (AccountId.orderPda maker amount) amount

/-- `create_order` (src/bridge lib.rs lines 31–115) plus the Anchor
account processing of `CreateOrder` (lines 312–350).

Anchor first executes the account constraints: `init` of the order PDA
(fails when an order with seeds `(maker, amount)` is already live), and
`init_if_needed` of the escrow token account when the caller supplies
it.  The handler body then validates `amount`, `direction` and the
expiration window — note `clock.slot.checked_add(MAX_EXPIRY_SLOTS)
.unwrap()`, a panic (not a typed error) when the addition overflows u64
— populates the order record and moves the escrow deposit. -/
def createOrder (s : BState) (slot : Nat) (maker : AccountId)
    (escrowProvided : Bool) (makerTa : Option AccountId)
    (amount direction expirationSlot : Nat) : Except BErr BState :=
  if (findOrder maker amount s.orders).isSome then
    Except.error BErr.accountAlreadyInUse
  else
    match escrowInitIfNeeded s maker amount escrowProvided with
    | Except.error e => Except.error e
    | Except.ok s0 =>
      if amount < MIN_ORDER_AMOUNT then Except.error BErr.invalidAmount
      else if 1 < direction then Except.error BErr.invalidDirection
      else if expirationSlot ≤ slot then Except.error BErr.expirationInPast
      else
        match checkedAdd slot MAX_EXPIRY_SLOTS with
        | none => Except.error BErr.panicked
        | some limit =>
          if limit < expirationSlot then Except.error BErr.expirationTooFar
          else
            match escrowDeposit s0 maker escrowProvided makerTa amount
                direction with
            | Except.error e => Except.error e
            | Except.ok s1 =>
              Except.ok { s1 with
                orders :=
                  ⟨maker, amount, direction, expirationSlot, false, 255⟩ ::
                    s1.orders,
                events :=
                  Event.orderCreated maker amount direction expirationSlot ::
                    s1.events }

/-- The `close = dest` constraint: move every remaining lamport of the
closed account to `dest` and zero the closed account. -/
def closeTo (s : BState) (closed dest : AccountId) : BState :=
  setNative (setNative s closed 0) dest
    ((setNative s closed 0).native dest + s.native closed)

/-- The raw lamport release of direction 1 (`try_borrow_mut_lamports`,
`-= amount` on the source and `+= amount` on the destination): unchecked
u64 arithmetic, so going out of range is a panic, not a typed error. -/
def rawLamportMove (s : BState) (src dst : AccountId) (amt : Nat) :
    Except BErr BState :=
  if s.native src < amt then Except.error BErr.panicked
  else
    let s1 := setNative s src (s.native src - amt)
    if U64MAX < s1.native dst + amt then Except.error BErr.panicked
    else Except.ok (setNative s1 dst (s1.native dst + amt))

/-- The two swap legs of `fill_order` (lines 153–222) for order `o`. -/
def fillLegs (s : BState) (taker makerAcct : AccountId) (o : Order)
    (escrowTa takerTa takerReceiveTa makerReceiveTa : Option AccountId) :
    Except BErr BState :=
  if o.direction = 0 then
    match sysTransfer s taker makerAcct o.amount with
    | Except.error e => Except.error e
    | Except.ok s1 =>
      match escrowTa with
      | none => Except.error BErr.missingEscrowTokenAccount
      | some eta =>
        match takerReceiveTa with
        | none => Except.error BErr.missingTakerReceiveTokenAccount
        | some tra =>
          splTransfer s1 eta tra (AccountId.orderPda o.maker o.amount) o.amount
  else if o.direction = 1 then
    match takerTa with
    | none => Except.error BErr.missingTakerTokenAccount
    | some tta =>
      match makerReceiveTa with
      | none => Except.error BErr.missingMakerReceiveTokenAccount
      | some mra =>
        match s.token tta with
        | none => Except.error BErr.accountNotInitialized
        | some t =>
          if t.mint ≠ SGOR_MINT then Except.error BErr.invalidMint
          else
            match splTransfer s tta mra taker o.amount with
            | Except.error e => Except.error e
            | Except.ok s1 =>
              rawLamportMove s1 (AccountId.orderPda o.maker o.amount) taker
                o.amount
  else Except.error BErr.invalidDirection

/-- `fill_order` (src/bridge lib.rs lines 130–237) plus the Anchor
account processing of `FillOrder` (lines 352–391).

Anchor first loads the order account by its PDA seeds (failing when no
live order with seeds `(orderMaker, orderAmount)` exists) and checks the
constraint `maker.key() == order.maker` (`Unauthorized`).  The body then
requires `!is_filled` (`OrderAlreadyFilled`) and
`clock.slot <= expiration_slot` (`OrderExpired`) and runs the two legs;
finally `is_filled := true` and the `close = maker` constraint sends the
order PDA's remaining lamports to the maker and destroys the record;
`OrderFilled` is emitted. -/
def fillOrder (s : BState) (slot : Nat) (taker makerAcct : AccountId)
    (orderMaker : AccountId) (orderAmount : Nat)
    (escrowTa takerTa takerReceiveTa makerReceiveTa : Option AccountId) :
    Except BErr BState :=
  match findOrder orderMaker orderAmount s.orders with
  | none => Except.error BErr.accountNotInitialized
  | some o =>
    if makerAcct ≠ o.maker then Except.error BErr.unauthorized
    else if o.isFilled then Except.error BErr.orderAlreadyFilled
    else if o.expirationSlot < slot then Except.error BErr.orderExpired
    else
      match fillLegs s taker makerAcct o escrowTa takerTa takerReceiveTa
          makerReceiveTa with
      | Except.error e => Except.error e
      | Except.ok s1 =>
        let s3 := closeTo s1 (AccountId.orderPda o.maker o.amount) makerAcct
        Except.ok { s3 with
          orders := removeOrder orderMaker orderAmount s3.orders,
          events :=
            Event.orderFilled o.maker taker o.amount o.direction ::
              s3.events }

/-- The escrow-return block of `cancel_order` (lines 263–295) for order
`o`: direction 0 returns the escrowed sGOR to the maker token account
signed by the order PDA, direction 1 moves the escrowed lamports from
the order PDA back to the maker with unchecked arithmetic. -/
def cancelRefund (s : BState) (makerSigner : AccountId) (o : Order)
    (escrowTa makerTa : Option AccountId) : Except BErr BState :=
  if o.direction = 0 then
    match escrowTa with
    | none => Except.error BErr.missingEscrowTokenAccount
    | some eta =>
      match makerTa with
      | none => Except.error BErr.missingMakerTokenAccount
      | some mta =>
        splTransfer s eta mta (AccountId.orderPda o.maker o.amount) o.amount
  else if o.direction = 1 then
    rawLamportMove s (AccountId.orderPda o.maker o.amount) makerSigner
      o.amount
  else Except.error BErr.invalidDirection

/-- `cancel_order` (src/bridge lib.rs lines 242–305) plus the Anchor
account processing of `CancelOrder` (lines 393–417).

Anchor loads the order by its PDA seeds and checks `has_one = maker`
(`Unauthorized`) before the body runs.  The body requires `!is_filled`
(`OrderAlreadyFilled`), re-checks the maker (dead under `has_one`), and
returns the escrow: direction 0 — SPL transfer escrow → maker token
account signed by the order PDA; direction 1 — unchecked lamport
arithmetic moving `amount` from the order PDA back to the maker.  The
`close = maker` constraint then sends the PDA's remaining lamports to
the maker and destroys the record; `OrderCancelled` is emitted.  Note:
the handler never reads the clock — there is no expiration check on
this path. -/
def cancelOrder (s : BState) (makerSigner : AccountId)
    (orderMaker : AccountId) (orderAmount : Nat)
    (escrowTa makerTa : Option AccountId) : Except BErr BState :=
  match findOrder orderMaker orderAmount s.orders with
  | none => Except.error BErr.accountNotInitialized
  | some o =>
    if makerSigner ≠ o.maker then Except.error BErr.unauthorized
    else if o.isFilled then Except.error BErr.orderAlreadyFilled
    else if makerSigner ≠ o.maker then Except.error BErr.unauthorized
    else
      match cancelRefund s makerSigner o escrowTa makerTa with
      | Except.error e => Except.error e
      | Except.ok s1 =>
        let s3 := closeTo s1 (AccountId.orderPda o.maker o.amount) makerSigner
        Except.ok { s3 with
          orders := removeOrder orderMaker orderAmount s3.orders,
          events :=
            Event.orderCancelled o.maker o.amount o.direction :: s3.events }

/-- Reachable bridge states: any state with no live orders and an empty
event log is a start state; each constructor applies one successful
instruction. -/
inductive Reach : BState → Prop where
  | base (native : AccountId → Nat) (token : AccountId → Option TokenAcct) :
      Reach ⟨native, token, [], []⟩
  | createStep {s s' : BState} (slot : Nat) (maker : AccountId)
      (escrowProvided : Bool) (makerTa : Option AccountId)
      (amount direction expirationSlot : Nat) :
      Reach s →
      createOrder s slot maker escrowProvided makerTa amount direction
        expirationSlot = Except.ok s' →
      Reach s'
  | fillStep {s s' : BState} (slot : Nat) (taker makerAcct : AccountId)
      (orderMaker : AccountId) (orderAmount : Nat)
      (escrowTa takerTa takerReceiveTa makerReceiveTa : Option AccountId) :
      Reach s →
      fillOrder s slot taker makerAcct orderMaker orderAmount escrowTa
        takerTa takerReceiveTa makerReceiveTa = Except.ok s' →
      Reach s'
  | cancelStep {s s' : BState} (makerSigner : AccountId)
      (orderMaker : AccountId) (orderAmount : Nat)
      (escrowTa makerTa : Option AccountId) :
      Reach s →
      cancelOrder s makerSigner orderMaker orderAmount escrowTa makerTa =
        Except.ok s' →
      Reach s'

/-- No two live orders share the `(maker, amount)` PDA seeds. -/
def uniqueOrders (l : List Order) : Prop :=
  l.Pairwise (fun a b => a.maker ≠ b.maker ∨ a.amount ≠ b.amount)

end Bridge

namespace Miner

/-- Account identities for the metered ledger: user keypairs, the single
program vault PDA (seeds `["vault"]`) and the hardcoded treasury
wallet. -/
inductive MAcctId where
  | user : Nat → MAcctId
  | vault : MAcctId
  | treasury : MAcctId
deriving DecidableEq, Repr

/-- The `MiningAccount` state (src/vanity-miner lib.rs, keyed per user by
the PDA seeds `["mining", user]`). -/
structure MiningAccount where
  owner : Nat
  balance : Nat
  totalSpent : Nat
  matchesFound : Nat
  isActive : Bool
  bump : Nat
deriving DecidableEq, Repr

/-- Ledger state: the per-user mining accounts and the native lamport
balances. -/
structure MState where
  accounts : Nat → Option MiningAccount
  native : MAcctId → Nat

/-- The program error codes plus Anchor account errors. -/
inductive MErr where
  | insufficientBalance
  | noBalance
  | invalidAmount
  | overflow
  | unauthorized
  | invalidTreasury
  | accountAlreadyInUse
  | accountNotInitialized
deriving DecidableEq, Repr

/-- Point update of a mining account. -/
def setAccount (s : MState) (u : Nat) (a : MiningAccount) : MState :=
  { s with accounts := fun x => if x = u then some a else s.accounts x }

/-- Point update of a native balance. -/
def setNative (s : MState) (a : MAcctId) (v : Nat) : MState :=
  { s with native := fun x => if x = a then v else s.native x }

/-- `system_program::transfer` for the miner ledger. -/
def sysTransfer (s : MState) (src dst : MAcctId) (amt : Nat) :
    Except MErr MState :=
  if amt ≤ s.native src then
    let s1 := setNative s src (s.native src - amt)
    if s1.native dst + amt ≤ U64MAX then
      Except.ok (setNative s1 dst (s1.native dst + amt))
    else Except.error MErr.overflow
  else Except.error MErr.insufficientBalance

/-- `initialize_user` (lines 19–28): Anchor `init` of the mining PDA
(fails when the account already exists), then all fields zeroed with
`owner := user`. -/
def initializeUser (s : MState) (u : Nat) (bump : Nat) :
    Except MErr MState :=
  match s.accounts u with
  | some _ => Except.error MErr.accountAlreadyInUse
  | none => Except.ok (setAccount s u ⟨u, 0, 0, 0, false, bump⟩)

/-- `deposit` (lines 32–60): Anchor owner constraint, then
`require amount > 0` (`InvalidAmount`), a native transfer user → vault,
and `balance := balance.checked_add(amount)` (`Overflow`). -/
def deposit (s : MState) (u : Nat) (amount : Nat) : Except MErr MState :=
  match s.accounts u with
  | none => Except.error MErr.accountNotInitialized
  | some acc =>
    if acc.owner ≠ u then Except.error MErr.unauthorized
    else if amount = 0 then Except.error MErr.invalidAmount
    else
      match sysTransfer s (MAcctId.user u) MAcctId.vault amount with
      | Except.error e => Except.error e
      | Except.ok s1 =>
        match checkedAdd acc.balance amount with
        | none => Except.error MErr.overflow
        | some b => Except.ok (setAccount s1 u { acc with balance := b })

/-- `charge_for_batch` (lines 64–104): owner constraint, treasury
address constraint, `require balance ≥ cost` (`InsufficientBalance`),
`checked_sub` on the balance and `checked_add` on `total_spent`
(`Overflow`), then a native transfer vault → treasury signed by the
vault PDA. -/
def chargeForBatch (s : MState) (u : Nat) (cost : Nat) :
    Except MErr MState :=
  match s.accounts u with
  | none => Except.error MErr.accountNotInitialized
  | some acc =>
    if acc.owner ≠ u then Except.error MErr.unauthorized
    else if acc.balance < cost then Except.error MErr.insufficientBalance
    else
      match checkedSub acc.balance cost with
      | none => Except.error MErr.overflow
      | some b =>
        match checkedAdd acc.totalSpent cost with
        | none => Except.error MErr.overflow
        | some t =>
          let s1 := setAccount s u { acc with balance := b, totalSpent := t }
          match sysTransfer s1 MAcctId.vault MAcctId.treasury cost with
          | Except.error e => Except.error e
          | Except.ok s2 => Except.ok s2

/-- `withdraw` (lines 107–137): owner constraint, `amount := balance`,
`require amount > 0` (`NoBalance`), a native transfer vault → user
signed by the vault PDA, then `balance := 0`. -/
def withdraw (s : MState) (u : Nat) : Except MErr MState :=
  match s.accounts u with
  | none => Except.error MErr.accountNotInitialized
  | some acc =>
    if acc.owner ≠ u then Except.error MErr.unauthorized
    else if acc.balance = 0 then Except.error MErr.noBalance
    else
      match sysTransfer s MAcctId.vault (MAcctId.user u) acc.balance with
      | Except.error e => Except.error e
      | Except.ok s1 => Except.ok (setAccount s1 u { acc with balance := 0 })

/-- `record_match` (lines 140–155): owner constraint, then
`matches_found := matches_found.checked_add(1)` (`Overflow`, u32). -/
def recordMatch (s : MState) (u : Nat) : Except MErr MState :=
  match s.accounts u with
  | none => Except.error MErr.accountNotInitialized
  | some acc =>
    if acc.owner ≠ u then Except.error MErr.unauthorized
    else
      match checkedAdd32 acc.matchesFound 1 with
      | none => Except.error MErr.overflow
      | some m =>
        Except.ok (setAccount s u { acc with matchesFound := m })

/-- `total_spent` of a user, `0` when no mining account exists. -/
def totalSpentOf (s : MState) (u : Nat) : Nat :=
  match s.accounts u with
  | none => 0
  | some acc => acc.totalSpent

end Miner

namespace Bridge

/-- Witness state: a live direction-1 order (maker `user 1`, amount
1000000, expiration 110) whose escrowed lamports sit in the order PDA;
`user 2` is a funded taker with sGOR in token account `user 10`;
`user 11` is the maker's sGOR receive account. -/
def witD1 : BState :=
  { native := fun a =>
      if a = AccountId.user 1 then 4000000
      else if a = AccountId.user 2 then 3000000
      else if a = AccountId.orderPda (AccountId.user 1) 1000000 then 1000000
      else 0,
    token := fun a =>
      if a = AccountId.user 10 then some ⟨SGOR_MINT, AccountId.user 2, 2000000⟩
      else if a = AccountId.user 11 then some ⟨SGOR_MINT, AccountId.user 1, 0⟩
      else none,
    orders := [⟨AccountId.user 1, 1000000, 1, 110, false, 255⟩],
    events := [] }

/-- Witness state: a live direction-0 order with sGOR escrowed in the
derived escrow token account; `user 12` is the taker's receive account,
`user 13` the maker's token account. -/
def witD0 : BState :=
  { native := fun a =>
      if a = AccountId.user 1 then 100
      else if a = AccountId.user 2 then 3000000
      else 0,
    token := fun a =>
      if a = AccountId.escrowPda (AccountId.user 1) 1000000 then
        some ⟨SGOR_MINT, AccountId.orderPda (AccountId.user 1) 1000000,
          1000000⟩
      else if a = AccountId.user 12 then some ⟨SGOR_MINT, AccountId.user 2, 5⟩
      else if a = AccountId.user 13 then some ⟨SGOR_MINT, AccountId.user 1, 7⟩
      else none,
    orders := [⟨AccountId.user 1, 1000000, 0, 110, false, 255⟩],
    events := [] }

/-- Witness state: like `witD0` but the order is already marked
filled. -/
def witFilled : BState :=
  { witD0 with orders := [⟨AccountId.user 1, 1000000, 0, 110, true, 255⟩] }

/-- Witness state: no orders, `user 1` funded with native lamports. -/
def witBase : BState :=
  { native := fun a => if a = AccountId.user 1 then 5000000 else 0,
    token := fun _ => none,
    orders := [],
    events := [] }

/-- The state after the witness fill of the direction-0 order in
`witD0` (taker `user 2`, escrow released to token account `user 12`). -/
def witD0Filled : BState :=
  ((fillOrder witD0 50 (AccountId.user 2) (AccountId.user 1)
    (AccountId.user 1) 1000000
    (some (AccountId.escrowPda (AccountId.user 1) 1000000)) none
    (some (AccountId.user 12)) none).toOption).get rfl

/-- The state after the witness fill of the direction-1 order in
`witD1` (taker `user 2` pays sGOR from `user 10` into `user 11`). -/
def witD1Filled : BState :=
  ((fillOrder witD1 50 (AccountId.user 2) (AccountId.user 1)
    (AccountId.user 1) 1000000 none (some (AccountId.user 10)) none
    (some (AccountId.user 11))).toOption).get rfl

/-- Witness state: no orders; `user 1` owns sGOR in token account
`user 20` and the derived escrow token account already exists. -/
def witBase0 : BState :=
  { native := fun _ => 0,
    token := fun a =>
      if a = AccountId.escrowPda (AccountId.user 1) 1000000 then
        some ⟨SGOR_MINT, AccountId.orderPda (AccountId.user 1) 1000000, 3⟩
      else if a = AccountId.user 20 then
        some ⟨SGOR_MINT, AccountId.user 1, 2000000⟩
      else none,
    orders := [],
    events := [] }

end Bridge

namespace Miner

/-- Witness state: `user 7` has a mining account with balance 40 and
some vault/user lamports. -/
def mWit : MState :=
  { accounts := fun u => if u = 7 then some ⟨7, 40, 5, 0, false, 3⟩ else none,
    native := fun a =>
      if a = MAcctId.user 7 then 100
      else if a = MAcctId.vault then 50
      else 0 }

/-- Witness state: `user 7` has a mining account with zero balance. -/
def mWitZero : MState :=
  { accounts := fun u => if u = 7 then some ⟨7, 0, 5, 0, false, 3⟩ else none,
    native := fun _ => 0 }

/-- Witness state: `user 7` has recorded balance `U64MAX`, so any further
deposit overflows the checked addition. -/
def mWitBig : MState :=
  { accounts := fun u =>
      if u = 7 then some ⟨7, U64MAX, 0, 0, false, 3⟩ else none,
    native := fun a => if a = MAcctId.user 7 then 10 else 0 }

end Miner

namespace Bridge

@[simp] lemma setNative_native (s : BState) (a : AccountId) (v : Nat)
    (x : AccountId) :
    (setNative s a v).native x = if x = a then v else s.native x := rfl

@[simp] lemma setNative_token (s : BState) (a : AccountId) (v : Nat) :
    (setNative s a v).token = s.token := rfl

@[simp] lemma setNative_orders (s : BState) (a : AccountId) (v : Nat) :
    (setNative s a v).orders = s.orders := rfl

@[simp] lemma setNative_events (s : BState) (a : AccountId) (v : Nat) :
    (setNative s a v).events = s.events := rfl

@[simp] lemma setToken_token (s : BState) (a : AccountId) (t : TokenAcct)
    (x : AccountId) :
    (setToken s a t).token x = if x = a then some t else s.token x := rfl

@[simp] lemma setToken_native (s : BState) (a : AccountId) (t : TokenAcct) :
    (setToken s a t).native = s.native := rfl

@[simp] lemma setToken_orders (s : BState) (a : AccountId) (t : TokenAcct) :
    (setToken s a t).orders = s.orders := rfl

@[simp] lemma setToken_events (s : BState) (a : AccountId) (t : TokenAcct) :
    (setToken s a t).events = s.events := rfl

/-- Successful native transfer between distinct accounts, as an
equation. -/
lemma sysTransfer_eq {s : BState} {src dst : AccountId} {amt : Nat}
    (h0 : src ≠ dst) (h1 : amt ≤ s.native src)
    (h2 : s.native dst + amt ≤ U64MAX) :
    sysTransfer s src dst amt =
      Except.ok (setNative (setNative s src (s.native src - amt)) dst
        (s.native dst + amt)) := by
  simp only [sysTransfer]
  rw [if_pos h1]
  have hd : (setNative s src (s.native src - amt)).native dst =
      s.native dst := by
    simp [setNative, Ne.symm h0]
  rw [hd, if_pos h2]

/-- A successful native transfer changes no token account, no order and
no event. -/
lemma sysTransfer_ok_frame {s t : BState} {src dst : AccountId} {amt : Nat}
    (h : sysTransfer s src dst amt = Except.ok t) :
    t.token = s.token ∧ t.orders = s.orders ∧ t.events = s.events := by
  simp only [sysTransfer] at h
  split at h
  · split at h
    · cases h; exact ⟨rfl, rfl, rfl⟩
    · cases h
  · cases h

/-- A successful SPL transfer changes no native balance, no order and no
event. -/
lemma splTransfer_ok_frame {s t : BState} {src dst authority : AccountId}
    {amt : Nat} (h : splTransfer s src dst authority amt = Except.ok t) :
    t.native = s.native ∧ t.orders = s.orders ∧ t.events = s.events := by
  simp only [splTransfer] at h
  split at h
  next sa da _ _ =>
    split at h
    · cases h
    · split at h
      · cases h
      · split at h
        · split at h
          next da1 _ =>
            split at h
            · cases h; exact ⟨rfl, rfl, rfl⟩
            · cases h
          next => cases h
        · cases h
  next => cases h

/-- Successful SPL transfer between distinct accounts, as an equation. -/
lemma splTransfer_eq {s : BState} {src dst authority : AccountId}
    {amt : Nat} {sa da : TokenAcct}
    (h0 : src ≠ dst) (hsa : s.token src = some sa)
    (hda : s.token dst = some da) (hown : sa.owner = authority)
    (hmint : sa.mint = da.mint) (h1 : amt ≤ sa.amount)
    (h2 : da.amount + amt ≤ U64MAX) :
    splTransfer s src dst authority amt =
      Except.ok (setToken (setToken s src { sa with amount := sa.amount - amt })
        dst { da with amount := da.amount + amt }) := by
  simp only [splTransfer, hsa, hda]
  rw [if_neg (not_ne_iff.mpr hown), if_neg (not_ne_iff.mpr hmint), if_pos h1]
  have hd : (setToken s src { sa with amount := sa.amount - amt }).token dst =
      some da := by
    simp [setToken, Ne.symm h0, hda]
  simp only [hd]
  rw [if_pos h2]

lemma findOrder_eq_none {maker : AccountId} {amount : Nat}
    {l : List Order} :
    findOrder maker amount l = none ↔
      ∀ o ∈ l, ¬(o.maker = maker ∧ o.amount = amount) := by
  induction l with
  | nil => simp [findOrder]
  | cons o rest ih =>
    by_cases h : o.maker = maker ∧ o.amount = amount
    · simp [findOrder, h]
    · simp [findOrder, h, ih]
      tauto

lemma removeOrder_sublist (maker : AccountId) (amount : Nat)
    (l : List Order) : List.Sublist (removeOrder maker amount l) l := by
  induction l with
  | nil => simp [removeOrder]
  | cons o rest ih =>
    simp only [removeOrder]
    split
    · exact List.sublist_cons_self o rest
    · exact List.Sublist.cons₂ o ih

lemma rawLamportMove_ok_frame {s t : BState} {src dst : AccountId}
    {amt : Nat} (h : rawLamportMove s src dst amt = Except.ok t) :
    t.token = s.token ∧ t.orders = s.orders ∧ t.events = s.events := by
  simp only [rawLamportMove] at h
  split at h
  · cases h
  · split at h
    · cases h
    · cases h; exact ⟨rfl, rfl, rfl⟩

lemma escrowInitIfNeeded_ok_frame {s t : BState} {maker : AccountId}
    {amount : Nat} {ep : Bool}
    (h : escrowInitIfNeeded s maker amount ep = Except.ok t) :
    t.native = s.native ∧ t.orders = s.orders ∧ t.events = s.events := by
  simp only [escrowInitIfNeeded] at h
  split at h
  · split at h
    · cases h; exact ⟨rfl, rfl, rfl⟩
    · split at h
      · cases h; exact ⟨rfl, rfl, rfl⟩
      · cases h
  · cases h; exact ⟨rfl, rfl, rfl⟩

lemma escrowDeposit_ok_frame {s t : BState} {maker : AccountId}
    {ep : Bool} {makerTa : Option AccountId} {amount direction : Nat}
    (h : escrowDeposit s maker ep makerTa amount direction = Except.ok t) :
    t.orders = s.orders ∧ t.events = s.events := by
  simp only [escrowDeposit] at h
  split at h
  · split at h
    · split at h
      · cases h
      · split at h
        · cases h
        · split at h
          · exact ⟨(splTransfer_ok_frame h).2.1, (splTransfer_ok_frame h).2.2⟩
          · cases h
    · cases h
  · exact ⟨(sysTransfer_ok_frame h).2.1, (sysTransfer_ok_frame h).2.2⟩

lemma fillLegs_ok_frame {s t : BState} {taker makerAcct : AccountId}
    {o : Order} {eTa tTa trTa mrTa : Option AccountId}
    (h : fillLegs s taker makerAcct o eTa tTa trTa mrTa = Except.ok t) :
    t.orders = s.orders ∧ t.events = s.events := by
  simp only [fillLegs] at h
  split at h
  · split at h
    next e he => cases h
    next s1 hsys =>
      split at h
      · cases h
      next eta =>
        split at h
        · cases h
        next tra =>
          have h1 := splTransfer_ok_frame h
          have h2 := sysTransfer_ok_frame hsys
          exact ⟨h1.2.1.trans h2.2.1, h1.2.2.trans h2.2.2⟩
  · split at h
    · split at h
      · cases h
      next tta =>
        split at h
        · cases h
        next mra =>
          split at h
          · cases h
          next tacct htok =>
            split at h
            · cases h
            · split at h
              next e he => cases h
              next s1 hspl =>
                have h1 := rawLamportMove_ok_frame h
                have h2 := splTransfer_ok_frame hspl
                exact ⟨h1.2.1.trans h2.2.1, h1.2.2.trans h2.2.2⟩
    · cases h

lemma cancelRefund_ok_frame {s t : BState} {makerSigner : AccountId}
    {o : Order} {eTa mTa : Option AccountId}
    (h : cancelRefund s makerSigner o eTa mTa = Except.ok t) :
    t.orders = s.orders ∧ t.events = s.events := by
  simp only [cancelRefund] at h
  split at h
  · split at h
    · cases h
    next eta =>
      split at h
      · cases h
      next mta =>
        exact ⟨(splTransfer_ok_frame h).2.1, (splTransfer_ok_frame h).2.2⟩
  · split at h
    · exact ⟨(rawLamportMove_ok_frame h).2.1, (rawLamportMove_ok_frame h).2.2⟩
    · cases h

@[simp] lemma closeTo_orders (s : BState) (c d : AccountId) :
    (closeTo s c d).orders = s.orders := rfl

@[simp] lemma closeTo_events (s : BState) (c d : AccountId) :
    (closeTo s c d).events = s.events := rfl

@[simp] lemma closeTo_token (s : BState) (c d : AccountId) :
    (closeTo s c d).token = s.token := rfl

lemma createOrder_ok_shape {s s' : BState} {slot : Nat} {maker : AccountId}
    {ep : Bool} {makerTa : Option AccountId}
    {amount direction expirationSlot : Nat}
    (h : createOrder s slot maker ep makerTa amount direction
      expirationSlot = Except.ok s') :
    findOrder maker amount s.orders = none ∧
      s'.orders =
        ⟨maker, amount, direction, expirationSlot, false, 255⟩ ::
          s.orders := by
  simp only [createOrder] at h
  split at h
  · cases h
  next hfind =>
    refine ⟨Option.not_isSome_iff_eq_none.mp hfind, ?_⟩
    split at h
    · cases h
    next s0 hinit =>
      split at h
      · cases h
      · split at h
        · cases h
        · split at h
          · cases h
          · split at h
            · cases h
            next limit hlim =>
              split at h
              · cases h
              · split at h
                · cases h
                next s1 hdep =>
                  cases h
                  have e1 := (escrowDeposit_ok_frame hdep).1
                  have e2 := (escrowInitIfNeeded_ok_frame hinit).2.1
                  simp [e1, e2]

lemma fillOrder_ok_shape {s s' : BState} {slot : Nat}
    {taker makerAcct orderMaker : AccountId} {orderAmount : Nat}
    {eTa tTa trTa mrTa : Option AccountId}
    (h : fillOrder s slot taker makerAcct orderMaker orderAmount eTa tTa
      trTa mrTa = Except.ok s') :
    s'.orders = removeOrder orderMaker orderAmount s.orders := by
  simp only [fillOrder] at h
  split at h
  next => cases h
  next o hfind =>
    split at h
    · cases h
    · split at h
      · cases h
      · split at h
        · cases h
        · split at h
          · cases h
          next s1 hlegs =>
            cases h
            have e1 := (fillLegs_ok_frame hlegs).1
            simp [e1]

lemma cancelOrder_ok_shape {s s' : BState}
    {makerSigner orderMaker : AccountId} {orderAmount : Nat}
    {eTa mTa : Option AccountId}
    (h : cancelOrder s makerSigner orderMaker orderAmount eTa mTa =
      Except.ok s') :
    s'.orders = removeOrder orderMaker orderAmount s.orders := by
  simp only [cancelOrder] at h
  split at h
  next => cases h
  next o hfind =>
    split at h
    · cases h
    · split at h
      · cases h
      · split at h
        · cases h
        next s1 href =>
          cases h
          have e1 := (cancelRefund_ok_frame href).1
          simp [e1]


lemma sysTransfer_ok_inv {s t : BState} {src dst : AccountId} {amt : Nat}
    (h : sysTransfer s src dst amt = Except.ok t) :
    amt ≤ s.native src ∧
      t = setNative (setNative s src (s.native src - amt)) dst
        ((setNative s src (s.native src - amt)).native dst + amt) := by
  simp only [sysTransfer] at h
  split at h
  next h1 =>
    split at h
    · cases h; exact ⟨h1, rfl⟩
    · cases h
  · cases h

lemma splTransfer_ok_inv {s t : BState} {src dst authority : AccountId}
    {amt : Nat} (h : splTransfer s src dst authority amt = Except.ok t) :
    ∃ sa da1,
      s.token src = some sa ∧ sa.owner = authority ∧ amt ≤ sa.amount ∧
      (setToken s src { sa with amount := sa.amount - amt }).token dst =
        some da1 ∧
      t = setToken (setToken s src { sa with amount := sa.amount - amt })
        dst { da1 with amount := da1.amount + amt } := by
  simp only [splTransfer] at h
  split at h
  next sa da hsa hda =>
    split at h
    · cases h
    next hown =>
      split at h
      · cases h
      · split at h
        next h1 =>
          split at h
          next da1 hda1 =>
            split at h
            · cases h
              exact ⟨sa, da1, hsa, not_ne_iff.mp hown, h1, hda1, rfl⟩
            · cases h
          next => cases h
        · cases h
  next => cases h

lemma rawLamportMove_ok_inv {s t : BState} {src dst : AccountId}
    {amt : Nat} (h : rawLamportMove s src dst amt = Except.ok t) :
    amt ≤ s.native src ∧
      t = setNative (setNative s src (s.native src - amt)) dst
        ((setNative s src (s.native src - amt)).native dst + amt) := by
  simp only [rawLamportMove] at h
  split at h
  · cases h
  next h1 =>
    split at h
    · cases h
    · cases h; exact ⟨Nat.le_of_not_lt h1, rfl⟩

lemma reach_uniqueOrders {s : BState} (h : Reach s) :
    uniqueOrders s.orders := by
  induction h with
  | base native token => exact List.Pairwise.nil
  | createStep slot maker ep mta amount direction exp hr hok ih =>
    obtain ⟨hnone, hshape⟩ := createOrder_ok_shape hok
    rw [uniqueOrders, hshape]
    refine List.Pairwise.cons ?_ ih
    intro o ho
    have hno := findOrder_eq_none.mp hnone o ho
    by_cases hm : maker = o.maker
    · right
      intro hamt
      exact hno ⟨hm.symm, hamt.symm⟩
    · left
      exact hm
  | fillStep slot taker makerAcct om oa eTa tTa trTa mrTa hr hok ih =>
    rw [uniqueOrders, fillOrder_ok_shape hok]
    exact List.Pairwise.sublist (removeOrder_sublist om oa _) ih
  | cancelStep makerSigner om oa eTa mTa hr hok ih =>
    rw [uniqueOrders, cancelOrder_ok_shape hok]
    exact List.Pairwise.sublist (removeOrder_sublist om oa _) ih

lemma createOrder_dup_fails {s : BState} {slot : Nat} {maker : AccountId}
    {ep : Bool} {makerTa : Option AccountId}
    {amount direction expirationSlot : Nat} {o : Order}
    (hfind : findOrder maker amount s.orders = some o) :
    createOrder s slot maker ep makerTa amount direction expirationSlot =
      Except.error BErr.accountAlreadyInUse := by
  simp [createOrder, hfind]

end Bridge

namespace Miner

@[simp] lemma setAccount_accounts (s : MState) (u : Nat) (a : MiningAccount)
    (x : Nat) :
    (setAccount s u a).accounts x = if x = u then some a else s.accounts x :=
  rfl

@[simp] lemma setAccount_native (s : MState) (u : Nat) (a : MiningAccount) :
    (setAccount s u a).native = s.native := rfl

@[simp] lemma mSetNative_native (s : MState) (a : MAcctId) (v : Nat)
    (x : MAcctId) :
    (setNative s a v).native x = if x = a then v else s.native x := rfl

@[simp] lemma setNative_accounts (s : MState) (a : MAcctId) (v : Nat) :
    (setNative s a v).accounts = s.accounts := rfl

/-- Successful native transfer between distinct accounts, as an
equation. -/
lemma mSysTransfer_eq {s : MState} {src dst : MAcctId} {amt : Nat}
    (h0 : src ≠ dst) (h1 : amt ≤ s.native src)
    (h2 : s.native dst + amt ≤ U64MAX) :
    sysTransfer s src dst amt =
      Except.ok (setNative (setNative s src (s.native src - amt)) dst
        (s.native dst + amt)) := by
  simp only [sysTransfer]
  rw [if_pos h1]
  have hd : (setNative s src (s.native src - amt)).native dst =
      s.native dst := by
    simp [setNative, Ne.symm h0]
  rw [hd, if_pos h2]

/-- A successful native transfer changes no mining account. -/
lemma sysTransfer_ok_accounts {s t : MState} {src dst : MAcctId} {amt : Nat}
    (h : sysTransfer s src dst amt = Except.ok t) :
    t.accounts = s.accounts := by
  simp only [sysTransfer] at h
  split at h
  · split at h
    · cases h; rfl
    · cases h
  · cases h

/-- Inversion of a successful `charge_for_batch`: the account existed
with `balance ≥ cost`, owned by the caller, and the result is the vault
→ treasury transfer applied after moving `cost` from `balance` to
`total_spent`. -/
lemma chargeForBatch_ok_inv {s s' : MState} {u cost : Nat}
    (h : chargeForBatch s u cost = Except.ok s') :
    ∃ acc, s.accounts u = some acc ∧ acc.owner = u ∧ cost ≤ acc.balance ∧
      sysTransfer (setAccount s u { acc with
        balance := acc.balance - cost,
        totalSpent := acc.totalSpent + cost }) MAcctId.vault
        MAcctId.treasury cost = Except.ok s' := by
  simp only [chargeForBatch] at h
  split at h
  · cases h
  next acc hacc =>
    split at h
    next hOwn => cases h
    next hOwn =>
      split at h
      next hlt => cases h
      next hlt =>
        split at h
        next hsubNone => cases h
        next b hsub =>
          split at h
          next haddNone => cases h
          next t hadd =>
            split at h
            next e hsys => cases h
            next s2 hsys =>
              cases h
              have hb : b = acc.balance - cost := by
                simp only [checkedSub] at hsub
                split at hsub
                · cases hsub; rfl
                · cases hsub
              have ht : t = acc.totalSpent + cost := by
                simp only [checkedAdd] at hadd
                split at hadd
                · cases hadd; rfl
                · cases hadd
              subst hb; subst ht
              exact ⟨acc, hacc, not_not.mp (by simpa using hOwn),
                Nat.le_of_not_lt hlt, hsys⟩

end Miner

namespace Bridge

/-- C2: a fill attempt on an already-filled order fails with
`OrderAlreadyFilled`; a fill attempt on an unfilled order past its
expiration slot fails with `OrderExpired`.  In the embedding an error
result carries no state, so neither failure changes any balance or the
order. -/
theorem fill_filled_or_expired_errors
    (s : BState) (slot : Nat) (taker : AccountId) (om : AccountId)
    (oa : Nat) (eTa tTa trTa mrTa : Option AccountId) (o : Order)
    (hfind : findOrder om oa s.orders = some o) :
    (o.isFilled = true →
      fillOrder s slot taker o.maker om oa eTa tTa trTa mrTa =
        Except.error BErr.orderAlreadyFilled) ∧
    (o.isFilled = false → o.expirationSlot < slot →
      fillOrder s slot taker o.maker om oa eTa tTa trTa mrTa =
        Except.error BErr.orderExpired) := by
  constructor
  · intro hf
    simp [fillOrder, hfind, hf]
  · intro hf hs
    simp [fillOrder, hfind, hf, hs]

theorem fill_filled_or_expired_errors_witness :
    fillOrder witFilled 50 (AccountId.user 2) (AccountId.user 1)
        (AccountId.user 1) 1000000 none none none none =
      Except.error BErr.orderAlreadyFilled ∧
    fillOrder witD0 111 (AccountId.user 2) (AccountId.user 1)
        (AccountId.user 1) 1000000 none none none none =
      Except.error BErr.orderExpired := by
  constructor
  · exact (fill_filled_or_expired_errors witFilled 50 (AccountId.user 2)
      (AccountId.user 1) 1000000 none none none none
      ⟨AccountId.user 1, 1000000, 0, 110, true, 255⟩ rfl).1 rfl
  · exact (fill_filled_or_expired_errors witD0 111 (AccountId.user 2)
      (AccountId.user 1) 1000000 none none none none
      ⟨AccountId.user 1, 1000000, 0, 110, false, 255⟩ rfl).2 rfl (by decide)

/-- C6: in every reachable state no two live orders share the
`(maker, amount)` pair — the order and vault PDAs are derived from
exactly those two inputs — and a create attempt while such an order is
live fails (the Anchor `init` of the already-existing order PDA) with no
state change. -/
theorem unique_live_order_per_maker_amount :
    (∀ s : BState, Reach s → uniqueOrders s.orders) ∧
    (∀ (s : BState) (slot : Nat) (maker : AccountId) (ep : Bool)
        (makerTa : Option AccountId) (amount direction exp : Nat) (o : Order),
      findOrder maker amount s.orders = some o →
      createOrder s slot maker ep makerTa amount direction exp =
        Except.error BErr.accountAlreadyInUse) :=
  ⟨fun _ h => reach_uniqueOrders h,
   fun _ _ _ _ _ _ _ _ _ h => createOrder_dup_fails h⟩

theorem unique_live_order_per_maker_amount_witness :
    uniqueOrders witBase.orders ∧
    createOrder witD1 50 (AccountId.user 1) false none 1000000 1 160 =
      Except.error BErr.accountAlreadyInUse :=
  ⟨unique_live_order_per_maker_amount.1 witBase (Reach.base _ _),
   unique_live_order_per_maker_amount.2 witD1 50 (AccountId.user 1) false
     none 1000000 1 160 ⟨AccountId.user 1, 1000000, 1, 110, false, 255⟩ rfl⟩

/-- C7 counterexample: with the current slot close to `u64::MAX`, a
create whose earlier guards all pass reaches
`clock.slot.checked_add(MAX_EXPIRY_SLOTS).unwrap()` and panics
(`BErr.panicked`, the model's Rust panic marker) instead of aborting
with a typed `BridgeError`. -/
theorem create_overflow_panics_cex :
    createOrder witBase (U64MAX - 1) (AccountId.user 1) false none
      1000000 1 U64MAX = Except.error BErr.panicked := by rfl

end Bridge

namespace Miner

/-- C8 counterexample: on an account whose recorded balance is zero,
`withdraw` does not transfer-and-zero — it fails with the typed
`NoBalance` error (the handler requires `amount > 0`). -/
theorem withdraw_zero_balance_fails_cex :
    withdraw mWitZero 7 = Except.error MErr.noBalance := by rfl

/-- C8 (amended): for every owner whose recorded balance is positive,
`withdraw` transfers exactly that balance from the vault back to the
owner and zeroes the record; with a zero balance it fails with
`NoBalance` and changes nothing. -/
theorem withdraw_full_balance
    (s : MState) (u : Nat) (acc : MiningAccount)
    (hacc : s.accounts u = some acc) (hown : acc.owner = u) :
    (acc.balance = 0 → withdraw s u = Except.error MErr.noBalance) ∧
    (0 < acc.balance → acc.balance ≤ s.native MAcctId.vault →
      s.native (MAcctId.user u) + acc.balance ≤ U64MAX →
      ∃ s', withdraw s u = Except.ok s' ∧
        s'.accounts u = some { acc with balance := 0 } ∧
        s'.native (MAcctId.user u) =
          s.native (MAcctId.user u) + acc.balance ∧
        s'.native MAcctId.vault = s.native MAcctId.vault - acc.balance) := by
  constructor
  · intro h0
    simp [withdraw, hacc, hown, h0]
  · intro hpos hle hcap
    have hne : MAcctId.vault ≠ MAcctId.user u := by simp
    have hsys := mSysTransfer_eq (s := s) hne hle hcap
    refine ⟨setAccount (setNative (setNative s MAcctId.vault
        (s.native MAcctId.vault - acc.balance)) (MAcctId.user u)
        (s.native (MAcctId.user u) + acc.balance)) u
        { acc with balance := 0 }, ?_, by simp, by simp, by simp⟩
    simp [withdraw, hacc, hown, Nat.pos_iff_ne_zero.mp hpos, hsys]

theorem withdraw_full_balance_witness :
    (withdraw mWitZero 7 = Except.error MErr.noBalance) ∧
    (∃ s', withdraw mWit 7 = Except.ok s' ∧
      s'.accounts 7 = some ⟨7, 0, 5, 0, false, 3⟩ ∧
      s'.native (MAcctId.user 7) = mWit.native (MAcctId.user 7) + 40 ∧
      s'.native MAcctId.vault = mWit.native MAcctId.vault - 40) :=
  ⟨(withdraw_full_balance mWitZero 7 ⟨7, 0, 5, 0, false, 3⟩ rfl rfl).1 rfl,
   (withdraw_full_balance mWit 7 ⟨7, 40, 5, 0, false, 3⟩ rfl rfl).2
     (by decide) (by decide) (by decide)⟩

/-- C9: a deposit of zero is rejected with the typed `InvalidAmount`
error before any transfer (an error result carries no state change), and
any successful deposit has a positive amount and credits the recorded
balance by exactly that amount. -/
theorem deposit_zero_rejected_and_exact_credit
    (s : MState) (u : Nat) (acc : MiningAccount)
    (hacc : s.accounts u = some acc) (hown : acc.owner = u) :
    deposit s u 0 = Except.error MErr.invalidAmount ∧
    (∀ (amount : Nat) (s' : MState),
      deposit s u amount = Except.ok s' →
      0 < amount ∧
        s'.accounts u = some { acc with balance := acc.balance + amount }) := by
  constructor
  · simp [deposit, hacc, hown]
  · intro amount s' h
    simp only [deposit, hacc] at h
    split at h
    · cases h
    · split at h
      · cases h
      next hne0 =>
        split at h
        · cases h
        next s1 hsys =>
          split at h
          · cases h
          next b hb =>
            cases h
            have haccs : s1.accounts = s.accounts :=
              sysTransfer_ok_accounts hsys
            have hb2 : b = acc.balance + amount := by
              simp only [checkedAdd] at hb
              split at hb
              · cases hb; rfl
              · cases hb
            refine ⟨Nat.pos_of_ne_zero hne0, ?_⟩
            simp [hb2]

theorem deposit_zero_rejected_and_exact_credit_witness :
    deposit mWit 7 0 = Except.error MErr.invalidAmount ∧
    (0 < 30 ∧
      ((deposit mWit 7 30).toOption.get rfl).accounts 7 =
        some ⟨7, 70, 5, 0, false, 3⟩) := by
  constructor
  · exact (deposit_zero_rejected_and_exact_credit mWit 7
      ⟨7, 40, 5, 0, false, 3⟩ rfl rfl).1
  · exact (deposit_zero_rejected_and_exact_credit mWit 7
      ⟨7, 40, 5, 0, false, 3⟩ rfl rfl).2 30 _ rfl

/-- C10: `total_spent` never decreases under any of the five
instructions, and a successful `charge_for_batch` of cost `c` — which
requires `balance ≥ c` — moves exactly `c` from `balance` to
`total_spent`. -/
theorem total_spent_monotone_and_charge_exact :
    (∀ (s s' : MState) (u b : Nat),
      initializeUser s u b = Except.ok s' →
      ∀ v, totalSpentOf s v ≤ totalSpentOf s' v) ∧
    (∀ (s s' : MState) (u amount : Nat),
      deposit s u amount = Except.ok s' →
      ∀ v, totalSpentOf s v ≤ totalSpentOf s' v) ∧
    (∀ (s s' : MState) (u cost : Nat),
      chargeForBatch s u cost = Except.ok s' →
      ∀ v, totalSpentOf s v ≤ totalSpentOf s' v) ∧
    (∀ (s s' : MState) (u : Nat),
      withdraw s u = Except.ok s' →
      ∀ v, totalSpentOf s v ≤ totalSpentOf s' v) ∧
    (∀ (s s' : MState) (u : Nat),
      recordMatch s u = Except.ok s' →
      ∀ v, totalSpentOf s v ≤ totalSpentOf s' v) ∧
    (∀ (s s' : MState) (u cost : Nat) (acc : MiningAccount),
      s.accounts u = some acc →
      chargeForBatch s u cost = Except.ok s' →
      cost ≤ acc.balance ∧
        s'.accounts u = some
          { acc with balance := acc.balance - cost,
                     totalSpent := acc.totalSpent + cost }) := by
  refine ⟨?_, ?_, ?_, ?_, ?_, ?_⟩
  · intro s s' u b h v
    simp only [initializeUser] at h
    split at h
    · cases h
    next hacc =>
      cases h
      by_cases hv : v = u
      · subst hv; simp [totalSpentOf, hacc]
      · simp [totalSpentOf, hv]
  · intro s s' u amount h v
    simp only [deposit] at h
    split at h
    · cases h
    next acc hacc =>
      split at h
      · cases h
      · split at h
        · cases h
        · split at h
          · cases h
          next s1 hsys =>
            split at h
            · cases h
            next b hb =>
              cases h
              have haccs : s1.accounts = s.accounts :=
                sysTransfer_ok_accounts hsys
              by_cases hv : v = u
              · subst hv; simp [totalSpentOf, hacc]
              · simp [totalSpentOf, hv, haccs]
  · intro s s' u cost h v
    obtain ⟨acc, hacc, hown, hle, hsys⟩ := chargeForBatch_ok_inv h
    have haccs := sysTransfer_ok_accounts hsys
    by_cases hv : v = u
    · subst hv
      have hv' : s'.accounts v = some { acc with
          balance := acc.balance - cost,
          totalSpent := acc.totalSpent + cost } := by
        rw [haccs]; simp
      simp only [totalSpentOf, hacc, hv']
      omega
    · have hv' : s'.accounts v = s.accounts v := by rw [haccs]; simp [hv]
      simp [totalSpentOf, hv']
  · intro s s' u h v
    simp only [withdraw] at h
    split at h
    · cases h
    next acc hacc =>
      split at h
      · cases h
      · split at h
        · cases h
        · split at h
          · cases h
          next s1 hsys =>
            cases h
            have haccs := sysTransfer_ok_accounts hsys
            by_cases hv : v = u
            · subst hv; simp [totalSpentOf, hacc, haccs]
            · simp [totalSpentOf, hv, haccs]
  · intro s s' u h v
    simp only [recordMatch] at h
    split at h
    · cases h
    next acc hacc =>
      split at h
      · cases h
      · split at h
        · cases h
        next m hm =>
          cases h
          by_cases hv : v = u
          · subst hv; simp [totalSpentOf, hacc]
          · simp [totalSpentOf, hv]
  · intro s s' u cost acc0 hacc0 h
    obtain ⟨acc, hacc, hown, hle, hsys⟩ := chargeForBatch_ok_inv h
    have heq : acc0 = acc :=
      Option.some_inj.mp (hacc0.symm.trans hacc)
    subst heq
    have haccs := sysTransfer_ok_accounts hsys
    refine ⟨hle, ?_⟩
    rw [haccs]; simp

theorem total_spent_monotone_and_charge_exact_witness :
    (∀ v, totalSpentOf mWit v ≤
      totalSpentOf ((chargeForBatch mWit 7 20).toOption.get rfl) v) ∧
    (20 ≤ 40 ∧
      ((chargeForBatch mWit 7 20).toOption.get rfl).accounts 7 =
        some ⟨7, 20, 25, 0, false, 3⟩) :=
  ⟨total_spent_monotone_and_charge_exact.2.2.1 mWit _ 7 20 rfl,
   total_spent_monotone_and_charge_exact.2.2.2.2.2 mWit _ 7 20
     ⟨7, 40, 5, 0, false, 3⟩ rfl rfl⟩

end Miner

/-- C7 (amended): balance arithmetic in the metered ledger aborts with
the typed `Overflow` error — shown here for a deposit whose checked
balance addition overflows — but the expiration-window computation in
the bridge's create uses `checked_add(MAX_EXPIRY_SLOTS).unwrap()`, which
panics (the model's `panicked` marker, not a typed `BridgeError`)
whenever the earlier guards pass and `slot + MAX_EXPIRY_SLOTS` exceeds
`u64::MAX`. -/
theorem arith_overflow_behavior :
    (∀ (s : Bridge.BState) (s0 : Bridge.BState) (slot : Nat)
        (maker : Bridge.AccountId) (ep : Bool)
        (makerTa : Option Bridge.AccountId) (amount direction exp : Nat),
      Bridge.findOrder maker amount s.orders = none →
      Bridge.escrowInitIfNeeded s maker amount ep = Except.ok s0 →
      Bridge.MIN_ORDER_AMOUNT ≤ amount → direction ≤ 1 → slot < exp →
      U64MAX < slot + Bridge.MAX_EXPIRY_SLOTS →
      Bridge.createOrder s slot maker ep makerTa amount direction exp =
        Except.error Bridge.BErr.panicked) ∧
    (∀ (s : Miner.MState) (u : Nat) (acc : Miner.MiningAccount)
        (amount : Nat),
      s.accounts u = some acc → acc.owner = u → amount ≠ 0 →
      amount ≤ s.native (Miner.MAcctId.user u) →
      s.native Miner.MAcctId.vault + amount ≤ U64MAX →
      U64MAX < acc.balance + amount →
      Miner.deposit s u amount = Except.error Miner.MErr.overflow) := by
  constructor
  · intro s s0 slot maker ep makerTa amount direction exp hfind hinit hamin
      hdir hslot hovf
    have hca : checkedAdd slot Bridge.MAX_EXPIRY_SLOTS = none := by
      rw [checkedAdd, if_neg (not_le.mpr hovf)]
    simp only [Bridge.createOrder, hfind, Option.isSome_none,
      Bool.false_eq_true, if_false, hinit]
    rw [if_neg (not_lt.mpr hamin), if_neg (not_lt.mpr hdir),
      if_neg (not_le.mpr hslot), hca]
  · intro s u acc amount hacc hown hne0 hbal hcap hovf
    have hne : Miner.MAcctId.user u ≠ Miner.MAcctId.vault := by simp
    have hsys := Miner.mSysTransfer_eq (s := s) hne hbal hcap
    have hca : checkedAdd acc.balance amount = none := by
      rw [checkedAdd, if_neg (not_le.mpr hovf)]
    simp only [Miner.deposit, hacc]
    rw [if_neg (not_not_intro hown), if_neg hne0, hsys, hca]

theorem arith_overflow_behavior_witness :
    Bridge.createOrder Bridge.witBase (U64MAX - 2) (Bridge.AccountId.user 1)
      false none 1000000 1 (U64MAX - 1) =
        Except.error Bridge.BErr.panicked ∧
    Miner.deposit Miner.mWitBig 7 5 = Except.error Miner.MErr.overflow :=
  ⟨arith_overflow_behavior.1 Bridge.witBase Bridge.witBase (U64MAX - 2)
      (Bridge.AccountId.user 1) false none 1000000 1 (U64MAX - 1) rfl rfl
      (by decide) (by decide) (by decide) (by decide),
   arith_overflow_behavior.2 Miner.mWitBig 7 ⟨7, U64MAX, 0, 0, false, 3⟩ 5
      rfl rfl (by decide) (by decide) (by decide) (by decide)⟩

namespace Bridge

lemma createOrder_dir1_eq {s : BState} {slot : Nat} {maker : AccountId}
    {amount exp : Nat}
    (hfind : findOrder maker amount s.orders = none)
    (hamin : MIN_ORDER_AMOUNT ≤ amount)
    (hslot : slot < exp) (hexp : exp ≤ slot + MAX_EXPIRY_SLOTS)
    (hcap : slot + MAX_EXPIRY_SLOTS ≤ U64MAX)
    (hne : maker ≠ AccountId.orderPda maker amount)
    (hbal : amount ≤ s.native maker)
    (hfit : s.native (AccountId.orderPda maker amount) + amount ≤ U64MAX) :
    createOrder s slot maker false none amount 1 exp =
      Except.ok { setNative (setNative s maker (s.native maker - amount))
          (AccountId.orderPda maker amount)
          (s.native (AccountId.orderPda maker amount) + amount) with
        orders := ⟨maker, amount, 1, exp, false, 255⟩ :: s.orders,
        events := Event.orderCreated maker amount 1 exp :: s.events } := by
  have hca : checkedAdd slot MAX_EXPIRY_SLOTS =
      some (slot + MAX_EXPIRY_SLOTS) := by
    rw [checkedAdd, if_pos hcap]
  have hsys := sysTransfer_eq (s := s) hne hbal hfit
  simp only [createOrder, hfind, Option.isSome_none, Bool.false_eq_true,
    if_false, escrowInitIfNeeded]
  rw [if_neg (not_lt.mpr hamin), if_neg (lt_irrefl 1),
    if_neg (not_le.mpr hslot), hca]
  simp only []
  rw [if_neg (not_lt.mpr hexp)]
  simp only [escrowDeposit]
  rw [if_neg one_ne_zero, hsys]
  exact rfl

lemma createOrder_dir0_eq {s : BState} {slot : Nat} {maker : AccountId}
    {mta : AccountId} {amount exp ebal : Nat} {mt : TokenAcct}
    (hfind : findOrder maker amount s.orders = none)
    (hesc : s.token (AccountId.escrowPda maker amount) =
      some ⟨SGOR_MINT, AccountId.orderPda maker amount, ebal⟩)
    (hmta : s.token mta = some mt) (hmmint : mt.mint = SGOR_MINT)
    (hmown : mt.owner = maker)
    (hne : mta ≠ AccountId.escrowPda maker amount)
    (hamin : MIN_ORDER_AMOUNT ≤ amount)
    (hslot : slot < exp) (hexp : exp ≤ slot + MAX_EXPIRY_SLOTS)
    (hcap : slot + MAX_EXPIRY_SLOTS ≤ U64MAX)
    (hbal : amount ≤ mt.amount) (hfit : ebal + amount ≤ U64MAX) :
    createOrder s slot maker true (some mta) amount 0 exp =
      Except.ok { setToken
          (setToken s mta { mt with amount := mt.amount - amount })
          (AccountId.escrowPda maker amount)
          ⟨SGOR_MINT, AccountId.orderPda maker amount, ebal + amount⟩ with
        orders := ⟨maker, amount, 0, exp, false, 255⟩ :: s.orders,
        events := Event.orderCreated maker amount 0 exp :: s.events } := by
  have hca : checkedAdd slot MAX_EXPIRY_SLOTS =
      some (slot + MAX_EXPIRY_SLOTS) := by
    rw [checkedAdd, if_pos hcap]
  have hspl := splTransfer_eq (s := s) hne hmta hesc hmown
    (by rw [hmmint]) hbal hfit
  simp only [createOrder, hfind, Option.isSome_none, Bool.false_eq_true,
    if_false, escrowInitIfNeeded, if_true, hesc]
  rw [if_pos (by exact ⟨trivial, trivial⟩)]
  simp only []
  rw [if_neg (not_lt.mpr hamin), if_neg (by decide : ¬(1:Nat) < 0),
    if_neg (not_le.mpr hslot), hca]
  simp only []
  rw [if_neg (not_lt.mpr hexp)]
  simp only [escrowDeposit, if_true, hmta]
  rw [if_pos hmmint, hspl]
  exact rfl

end Bridge

namespace Bridge

/-- C4: each create-side validation failure (amount below
`MIN_ORDER_AMOUNT`, direction outside `{0,1}`, expiration not in
`(slot, slot + MAX_EXPIRY_SLOTS]`) and an escrow-transfer failure abort
with the matching typed error — an error result carries no state change
— and a valid create moves exactly `amount` of the escrowed kind from
the maker into the vault and leaves the order retrievable with
`filled = false`. -/
theorem create_validation_and_escrow_effects :
    (∀ (s s0 : BState) (slot : Nat) (maker : AccountId) (ep : Bool)
        (makerTa : Option AccountId) (amount direction exp : Nat),
      findOrder maker amount s.orders = none →
      escrowInitIfNeeded s maker amount ep = Except.ok s0 →
      amount < MIN_ORDER_AMOUNT →
      createOrder s slot maker ep makerTa amount direction exp =
        Except.error BErr.invalidAmount) ∧
    (∀ (s s0 : BState) (slot : Nat) (maker : AccountId) (ep : Bool)
        (makerTa : Option AccountId) (amount direction exp : Nat),
      findOrder maker amount s.orders = none →
      escrowInitIfNeeded s maker amount ep = Except.ok s0 →
      MIN_ORDER_AMOUNT ≤ amount → 1 < direction →
      createOrder s slot maker ep makerTa amount direction exp =
        Except.error BErr.invalidDirection) ∧
    (∀ (s s0 : BState) (slot : Nat) (maker : AccountId) (ep : Bool)
        (makerTa : Option AccountId) (amount direction exp : Nat),
      findOrder maker amount s.orders = none →
      escrowInitIfNeeded s maker amount ep = Except.ok s0 →
      MIN_ORDER_AMOUNT ≤ amount → direction ≤ 1 → exp ≤ slot →
      createOrder s slot maker ep makerTa amount direction exp =
        Except.error BErr.expirationInPast) ∧
    (∀ (s s0 : BState) (slot : Nat) (maker : AccountId) (ep : Bool)
        (makerTa : Option AccountId) (amount direction exp : Nat),
      findOrder maker amount s.orders = none →
      escrowInitIfNeeded s maker amount ep = Except.ok s0 →
      MIN_ORDER_AMOUNT ≤ amount → direction ≤ 1 → slot < exp →
      slot + MAX_EXPIRY_SLOTS ≤ U64MAX →
      slot + MAX_EXPIRY_SLOTS < exp →
      createOrder s slot maker ep makerTa amount direction exp =
        Except.error BErr.expirationTooFar) ∧
    (∀ (s : BState) (slot : Nat) (maker : AccountId) (amount exp : Nat),
      findOrder maker amount s.orders = none →
      MIN_ORDER_AMOUNT ≤ amount → slot < exp →
      exp ≤ slot + MAX_EXPIRY_SLOTS → slot + MAX_EXPIRY_SLOTS ≤ U64MAX →
      s.native maker < amount →
      createOrder s slot maker false none amount 1 exp =
        Except.error BErr.insufficientFunds) ∧
    (∀ (s : BState) (slot : Nat) (maker : AccountId) (mta : AccountId)
        (amount exp ebal : Nat) (mt : TokenAcct),
      findOrder maker amount s.orders = none →
      s.token (AccountId.escrowPda maker amount) =
        some ⟨SGOR_MINT, AccountId.orderPda maker amount, ebal⟩ →
      s.token mta = some mt → mt.mint = SGOR_MINT → mt.owner = maker →
      mta ≠ AccountId.escrowPda maker amount →
      MIN_ORDER_AMOUNT ≤ amount → slot < exp →
      exp ≤ slot + MAX_EXPIRY_SLOTS → slot + MAX_EXPIRY_SLOTS ≤ U64MAX →
      amount ≤ mt.amount → ebal + amount ≤ U64MAX →
      ∃ s', createOrder s slot maker true (some mta) amount 0 exp =
          Except.ok s' ∧
        s'.token (AccountId.escrowPda maker amount) =
          some ⟨SGOR_MINT, AccountId.orderPda maker amount, ebal + amount⟩ ∧
        s'.token mta = some { mt with amount := mt.amount - amount } ∧
        findOrder maker amount s'.orders =
          some ⟨maker, amount, 0, exp, false, 255⟩) ∧
    (∀ (s : BState) (slot : Nat) (maker : AccountId) (amount exp : Nat),
      findOrder maker amount s.orders = none →
      MIN_ORDER_AMOUNT ≤ amount → slot < exp →
      exp ≤ slot + MAX_EXPIRY_SLOTS → slot + MAX_EXPIRY_SLOTS ≤ U64MAX →
      maker ≠ AccountId.orderPda maker amount →
      amount ≤ s.native maker →
      s.native (AccountId.orderPda maker amount) + amount ≤ U64MAX →
      ∃ s', createOrder s slot maker false none amount 1 exp =
          Except.ok s' ∧
        s'.native (AccountId.orderPda maker amount) =
          s.native (AccountId.orderPda maker amount) + amount ∧
        s'.native maker = s.native maker - amount ∧
        findOrder maker amount s'.orders =
          some ⟨maker, amount, 1, exp, false, 255⟩) := by
  refine ⟨?_, ?_, ?_, ?_, ?_, ?_, ?_⟩
  · intro s s0 slot maker ep makerTa amount direction exp hf hi h
    simp only [createOrder, hf, Option.isSome_none, Bool.false_eq_true,
      if_false, hi]
    rw [if_pos h]
  · intro s s0 slot maker ep makerTa amount direction exp hf hi ha h
    simp only [createOrder, hf, Option.isSome_none, Bool.false_eq_true,
      if_false, hi]
    rw [if_neg (not_lt.mpr ha), if_pos h]
  · intro s s0 slot maker ep makerTa amount direction exp hf hi ha hd h
    simp only [createOrder, hf, Option.isSome_none, Bool.false_eq_true,
      if_false, hi]
    rw [if_neg (not_lt.mpr ha), if_neg (not_lt.mpr hd), if_pos h]
  · intro s s0 slot maker ep makerTa amount direction exp hf hi ha hd hs
      hcap h
    have hca : checkedAdd slot MAX_EXPIRY_SLOTS =
        some (slot + MAX_EXPIRY_SLOTS) := by
      rw [checkedAdd, if_pos hcap]
    simp only [createOrder, hf, Option.isSome_none, Bool.false_eq_true,
      if_false, hi]
    rw [if_neg (not_lt.mpr ha), if_neg (not_lt.mpr hd),
      if_neg (not_le.mpr hs), hca]
    simp only []
    rw [if_pos h]
  · intro s slot maker amount exp hf ha hs he hcap h
    have hca : checkedAdd slot MAX_EXPIRY_SLOTS =
        some (slot + MAX_EXPIRY_SLOTS) := by
      rw [checkedAdd, if_pos hcap]
    have hsys : sysTransfer s maker (AccountId.orderPda maker amount)
        amount = Except.error BErr.insufficientFunds := by
      rw [sysTransfer, if_neg (not_le.mpr h)]
    simp only [createOrder, hf, Option.isSome_none, Bool.false_eq_true,
      if_false, escrowInitIfNeeded]
    rw [if_neg (not_lt.mpr ha), if_neg (lt_irrefl 1),
      if_neg (not_le.mpr hs), hca]
    simp only []
    rw [if_neg (not_lt.mpr he)]
    simp only [escrowDeposit]
    rw [if_neg one_ne_zero, hsys]
  · intro s slot maker mta amount exp ebal mt hf hesc hmta hmmint hmown
      hne ha hs he hcap hbal hfit
    refine ⟨_, createOrder_dir0_eq hf hesc hmta hmmint hmown hne ha hs he
      hcap hbal hfit, ?_, ?_, ?_⟩
    · simp
    · simp [hne]
    · simp [findOrder]
  · intro s slot maker amount exp hf ha hs he hcap hne hbal hfit
    refine ⟨_, createOrder_dir1_eq hf ha hs he hcap hne hbal hfit,
      ?_, ?_, ?_⟩
    · simp
    · simp [hne]
    · simp [findOrder]

end Bridge

namespace Bridge

theorem create_validation_and_escrow_effects_witness :
    createOrder witBase 10 (AccountId.user 1) false none 5 0 110 =
      Except.error BErr.invalidAmount ∧
    (∃ s', createOrder witBase0 10 (AccountId.user 1) true
        (some (AccountId.user 20)) 1000000 0 110 = Except.ok s' ∧
      s'.token (AccountId.escrowPda (AccountId.user 1) 1000000) =
        some ⟨SGOR_MINT, AccountId.orderPda (AccountId.user 1) 1000000,
          3 + 1000000⟩ ∧
      s'.token (AccountId.user 20) =
        some ⟨SGOR_MINT, AccountId.user 1, 2000000 - 1000000⟩ ∧
      findOrder (AccountId.user 1) 1000000 s'.orders =
        some ⟨AccountId.user 1, 1000000, 0, 110, false, 255⟩) ∧
    (∃ s', createOrder witBase 10 (AccountId.user 1) false none 1000000 1
        110 = Except.ok s' ∧
      s'.native (AccountId.orderPda (AccountId.user 1) 1000000) =
        witBase.native (AccountId.orderPda (AccountId.user 1) 1000000) +
          1000000 ∧
      s'.native (AccountId.user 1) =
        witBase.native (AccountId.user 1) - 1000000 ∧
      findOrder (AccountId.user 1) 1000000 s'.orders =
        some ⟨AccountId.user 1, 1000000, 1, 110, false, 255⟩) :=
  ⟨create_validation_and_escrow_effects.1 witBase witBase 10
      (AccountId.user 1) false none 5 0 110 rfl rfl (by decide),
   create_validation_and_escrow_effects.2.2.2.2.2.1 witBase0 10
      (AccountId.user 1) (AccountId.user 20) 1000000 110 3
      ⟨SGOR_MINT, AccountId.user 1, 2000000⟩ rfl rfl rfl rfl rfl
      (by decide) (by decide) (by decide) (by decide) (by decide)
      (by decide) (by decide),
   create_validation_and_escrow_effects.2.2.2.2.2.2 witBase 10
      (AccountId.user 1) 1000000 110 rfl (by decide) (by decide)
      (by decide) (by decide) (by decide) (by decide) (by decide)⟩

end Bridge

namespace Bridge

/-- Successful raw lamport move between distinct accounts, as an
equation. -/
lemma rawLamportMove_eq {s : BState} {src dst : AccountId} {amt : Nat}
    (h0 : src ≠ dst) (h1 : amt ≤ s.native src)
    (h2 : s.native dst + amt ≤ U64MAX) :
    rawLamportMove s src dst amt =
      Except.ok (setNative (setNative s src (s.native src - amt)) dst
        (s.native dst + amt)) := by
  simp only [rawLamportMove]
  rw [if_neg (not_lt.mpr h1)]
  have hd : (setNative s src (s.native src - amt)).native dst =
      s.native dst := by
    simp [setNative, Ne.symm h0]
  rw [hd, if_neg (not_lt.mpr h2)]

lemma cancelOrder_dir1_eq (s : BState) (om : AccountId) (oa : Nat)
    (o : Order) (eTa mTa : Option AccountId)
    (hfind : findOrder om oa s.orders = some o)
    (hdir : o.direction = 1) (hfill : o.isFilled = false)
    (hpda : s.native (AccountId.orderPda o.maker o.amount) = o.amount)
    (hfit : s.native o.maker + o.amount ≤ U64MAX)
    (hne : AccountId.orderPda o.maker o.amount ≠ o.maker) :
    ∃ s', cancelOrder s o.maker om oa eTa mTa = Except.ok s' ∧
      s'.native o.maker = s.native o.maker + o.amount ∧
      s'.native (AccountId.orderPda o.maker o.amount) = 0 ∧
      s'.token = s.token ∧
      s'.orders = removeOrder om oa s.orders ∧
      s'.events = Event.orderCancelled o.maker o.amount o.direction ::
        s.events := by
  have hraw := rawLamportMove_eq (s := s) hne hpda.symm.le hfit
  refine ⟨{ closeTo (setNative (setNative s
      (AccountId.orderPda o.maker o.amount)
      (s.native (AccountId.orderPda o.maker o.amount) - o.amount)) o.maker
      (s.native o.maker + o.amount))
      (AccountId.orderPda o.maker o.amount) o.maker with
    orders := removeOrder om oa s.orders,
    events := Event.orderCancelled o.maker o.amount o.direction ::
      s.events }, ?_, ?_, ?_, ?_, rfl, rfl⟩
  · simp [cancelOrder, hfind, hfill, cancelRefund, hdir, hraw]
  · simp [closeTo, hne, Ne.symm hne, hpda]
  · simp [closeTo, hne, Ne.symm hne]
  · rfl

end Bridge

namespace Bridge

lemma cancelOrder_dir0_eq (s : BState) (om : AccountId) (oa : Nat)
    (o : Order) (eta mta : AccountId) (ea ma : TokenAcct)
    (hfind : findOrder om oa s.orders = some o)
    (hdir : o.direction = 0) (hfill : o.isFilled = false)
    (hesc : s.token eta = some ea)
    (heo : ea.owner = AccountId.orderPda o.maker o.amount)
    (hmta : s.token mta = some ma) (hmint : ea.mint = ma.mint)
    (hbal : o.amount ≤ ea.amount) (hfit : ma.amount + o.amount ≤ U64MAX)
    (hne : eta ≠ mta) :
    ∃ s', cancelOrder s o.maker om oa (some eta) (some mta) =
        Except.ok s' ∧
      s'.token mta = some { ma with amount := ma.amount + o.amount } ∧
      s'.token eta = some { ea with amount := ea.amount - o.amount } ∧
      s'.orders = removeOrder om oa s.orders ∧
      s'.events = Event.orderCancelled o.maker o.amount o.direction ::
        s.events := by
  have hspl := splTransfer_eq (s := s) hne hesc hmta heo hmint hbal hfit
  refine ⟨{ closeTo (setToken
      (setToken s eta { ea with amount := ea.amount - o.amount }) mta
      { ma with amount := ma.amount + o.amount })
      (AccountId.orderPda o.maker o.amount) o.maker with
    orders := removeOrder om oa s.orders,
    events := Event.orderCancelled o.maker o.amount o.direction ::
      s.events }, ?_, ?_, ?_, rfl, rfl⟩
  · simp [cancelOrder, hfind, hfill, cancelRefund, hdir, hspl]
  · simp
  · simp [hne]

end Bridge

namespace Bridge

/-- C3: a cancel by anyone but the maker fails with `Unauthorized` (the
Anchor `has_one = maker` constraint, checked before the body); a cancel
of a filled order by the maker fails with `OrderAlreadyFilled`; and a
cancel of an unfilled order by its maker succeeds — returning the
escrowed amount from the vault to the maker and destroying the order —
with no condition on any clock: `cancelOrder` does not even take the
current slot, mirroring the handler, which never reads the `Clock`, so
an expired unfilled order is cancellable indefinitely. -/
theorem cancel_unauthorized_filled_and_no_expiry_check :
    (∀ (s : BState) (caller om : AccountId) (oa : Nat)
        (eTa mTa : Option AccountId) (o : Order),
      findOrder om oa s.orders = some o → caller ≠ o.maker →
      cancelOrder s caller om oa eTa mTa =
        Except.error BErr.unauthorized) ∧
    (∀ (s : BState) (om : AccountId) (oa : Nat)
        (eTa mTa : Option AccountId) (o : Order),
      findOrder om oa s.orders = some o → o.isFilled = true →
      cancelOrder s o.maker om oa eTa mTa =
        Except.error BErr.orderAlreadyFilled) ∧
    (∀ (s : BState) (om : AccountId) (oa : Nat) (o : Order)
        (eta mta : AccountId) (ea ma : TokenAcct),
      findOrder om oa s.orders = some o →
      o.direction = 0 → o.isFilled = false →
      s.token eta = some ea →
      ea.owner = AccountId.orderPda o.maker o.amount →
      s.token mta = some ma → ea.mint = ma.mint →
      o.amount ≤ ea.amount → ma.amount + o.amount ≤ U64MAX → eta ≠ mta →
      ∃ s', cancelOrder s o.maker om oa (some eta) (some mta) =
          Except.ok s' ∧
        s'.token mta = some { ma with amount := ma.amount + o.amount } ∧
        s'.token eta = some { ea with amount := ea.amount - o.amount } ∧
        s'.orders = removeOrder om oa s.orders ∧
        s'.events = Event.orderCancelled o.maker o.amount o.direction ::
          s.events) ∧
    (∀ (s : BState) (om : AccountId) (oa : Nat) (o : Order)
        (eTa mTa : Option AccountId),
      findOrder om oa s.orders = some o →
      o.direction = 1 → o.isFilled = false →
      s.native (AccountId.orderPda o.maker o.amount) = o.amount →
      s.native o.maker + o.amount ≤ U64MAX →
      AccountId.orderPda o.maker o.amount ≠ o.maker →
      ∃ s', cancelOrder s o.maker om oa eTa mTa = Except.ok s' ∧
        s'.native o.maker = s.native o.maker + o.amount ∧
        s'.native (AccountId.orderPda o.maker o.amount) = 0 ∧
        s'.token = s.token ∧
        s'.orders = removeOrder om oa s.orders ∧
        s'.events = Event.orderCancelled o.maker o.amount o.direction ::
          s.events) := by
  refine ⟨?_, ?_, ?_, ?_⟩
  · intro s caller om oa eTa mTa o hfind hcaller
    simp [cancelOrder, hfind, hcaller]
  · intro s om oa eTa mTa o hfind hf
    simp [cancelOrder, hfind, hf]
  · intro s om oa o eta mta ea ma hfind hdir hfill hesc heo hmta hmint
      hbal hfit hne
    exact cancelOrder_dir0_eq s om oa o eta mta ea ma hfind hdir hfill
      hesc heo hmta hmint hbal hfit hne
  · intro s om oa o eTa mTa hfind hdir hfill hpda hfit hne
    exact cancelOrder_dir1_eq s om oa o eTa mTa hfind hdir hfill hpda
      hfit hne

theorem cancel_unauthorized_filled_and_no_expiry_check_witness :
    cancelOrder witD1 (AccountId.user 2) (AccountId.user 1) 1000000 none
      none = Except.error BErr.unauthorized ∧
    cancelOrder witFilled (AccountId.user 1) (AccountId.user 1) 1000000
      none none = Except.error BErr.orderAlreadyFilled ∧
    (∃ s', cancelOrder witD0 (AccountId.user 1) (AccountId.user 1) 1000000
        (some (AccountId.escrowPda (AccountId.user 1) 1000000))
        (some (AccountId.user 13)) = Except.ok s' ∧
      s'.token (AccountId.user 13) =
        some ⟨SGOR_MINT, AccountId.user 1, 7 + 1000000⟩ ∧
      s'.token (AccountId.escrowPda (AccountId.user 1) 1000000) =
        some ⟨SGOR_MINT, AccountId.orderPda (AccountId.user 1) 1000000,
          1000000 - 1000000⟩ ∧
      s'.orders = removeOrder (AccountId.user 1) 1000000 witD0.orders ∧
      s'.events = Event.orderCancelled (AccountId.user 1) 1000000 0 ::
        witD0.events) ∧
    (∃ s', cancelOrder witD1 (AccountId.user 1) (AccountId.user 1) 1000000
        none none = Except.ok s' ∧
      s'.native (AccountId.user 1) = witD1.native (AccountId.user 1) +
        1000000 ∧
      s'.native (AccountId.orderPda (AccountId.user 1) 1000000) = 0 ∧
      s'.token = witD1.token ∧
      s'.orders = removeOrder (AccountId.user 1) 1000000 witD1.orders ∧
      s'.events = Event.orderCancelled (AccountId.user 1) 1000000 1 ::
        witD1.events) :=
  ⟨cancel_unauthorized_filled_and_no_expiry_check.1 witD1
      (AccountId.user 2) (AccountId.user 1) 1000000 none none
      ⟨AccountId.user 1, 1000000, 1, 110, false, 255⟩ rfl (by decide),
   cancel_unauthorized_filled_and_no_expiry_check.2.1 witFilled
      (AccountId.user 1) 1000000 none none
      ⟨AccountId.user 1, 1000000, 0, 110, true, 255⟩ rfl rfl,
   cancel_unauthorized_filled_and_no_expiry_check.2.2.1 witD0
      (AccountId.user 1) 1000000
      ⟨AccountId.user 1, 1000000, 0, 110, false, 255⟩
      (AccountId.escrowPda (AccountId.user 1) 1000000)
      (AccountId.user 13)
      ⟨SGOR_MINT, AccountId.orderPda (AccountId.user 1) 1000000, 1000000⟩
      ⟨SGOR_MINT, AccountId.user 1, 7⟩ rfl rfl rfl rfl rfl rfl rfl
      (by decide) (by decide) (by decide),
   cancel_unauthorized_filled_and_no_expiry_check.2.2.2 witD1
      (AccountId.user 1) 1000000
      ⟨AccountId.user 1, 1000000, 1, 110, false, 255⟩ none none rfl rfl
      rfl rfl (by decide) (by decide)⟩

end Bridge

namespace Bridge

/-- C5: whenever a create succeeds and the maker cancels with no fill in
between, the maker's balance of the escrowed asset is restored exactly
— native lamports for direction 1, the sGOR token balance for direction
0 — and the order list returns to its pre-create value. -/
theorem create_cancel_roundtrip :
    (∀ (s : BState) (slot : Nat) (maker : AccountId) (amount exp : Nat),
      findOrder maker amount s.orders = none →
      MIN_ORDER_AMOUNT ≤ amount → slot < exp →
      exp ≤ slot + MAX_EXPIRY_SLOTS → slot + MAX_EXPIRY_SLOTS ≤ U64MAX →
      maker ≠ AccountId.orderPda maker amount →
      amount ≤ s.native maker → s.native maker ≤ U64MAX →
      s.native (AccountId.orderPda maker amount) = 0 →
      ∃ s1 s2,
        createOrder s slot maker false none amount 1 exp =
          Except.ok s1 ∧
        cancelOrder s1 maker maker amount none none = Except.ok s2 ∧
        s2.native maker = s.native maker ∧
        s2.native (AccountId.orderPda maker amount) = 0 ∧
        s2.orders = s.orders) ∧
    (∀ (s : BState) (slot : Nat) (maker mta : AccountId)
        (amount exp ebal : Nat) (mt : TokenAcct),
      findOrder maker amount s.orders = none →
      s.token (AccountId.escrowPda maker amount) =
        some ⟨SGOR_MINT, AccountId.orderPda maker amount, ebal⟩ →
      s.token mta = some mt → mt.mint = SGOR_MINT → mt.owner = maker →
      mta ≠ AccountId.escrowPda maker amount →
      MIN_ORDER_AMOUNT ≤ amount → slot < exp →
      exp ≤ slot + MAX_EXPIRY_SLOTS → slot + MAX_EXPIRY_SLOTS ≤ U64MAX →
      amount ≤ mt.amount → ebal + amount ≤ U64MAX → mt.amount ≤ U64MAX →
      ∃ s1 s2,
        createOrder s slot maker true (some mta) amount 0 exp =
          Except.ok s1 ∧
        cancelOrder s1 maker maker amount
          (some (AccountId.escrowPda maker amount)) (some mta) =
          Except.ok s2 ∧
        s2.token mta = some mt ∧
        s2.token (AccountId.escrowPda maker amount) =
          some ⟨SGOR_MINT, AccountId.orderPda maker amount, ebal⟩ ∧
        s2.orders = s.orders) := by
  constructor
  · intro s slot maker amount exp hf ha hs he hcap hne hbal hm64 hpda0
    have hfit : s.native (AccountId.orderPda maker amount) + amount ≤
        U64MAX := by
      rw [hpda0]; omega
    have hc := createOrder_dir1_eq hf ha hs he hcap hne hbal hfit
    refine ⟨{ setNative (setNative s maker (s.native maker - amount))
        (AccountId.orderPda maker amount)
        (s.native (AccountId.orderPda maker amount) + amount) with
      orders := ⟨maker, amount, 1, exp, false, 255⟩ :: s.orders,
      events := Event.orderCreated maker amount 1 exp :: s.events }, ?_⟩
    have hfind1 : findOrder maker amount
        ((⟨maker, amount, 1, exp, false, 255⟩ : Order) :: s.orders) =
        some ⟨maker, amount, 1, exp, false, 255⟩ := by
      simp [findOrder]
    obtain ⟨s2, hok2, hm2, hp2, htok2, hord2, hev2⟩ :=
      cancelOrder_dir1_eq { setNative (setNative s maker
          (s.native maker - amount)) (AccountId.orderPda maker amount)
          (s.native (AccountId.orderPda maker amount) + amount) with
        orders := ⟨maker, amount, 1, exp, false, 255⟩ :: s.orders,
        events := Event.orderCreated maker amount 1 exp :: s.events }
        maker amount
        ⟨maker, amount, 1, exp, false, 255⟩
        none none hfind1 rfl rfl
        (by simp [hpda0]) (by simp [hne, Ne.symm hne]; omega)
        (Ne.symm hne)
    refine ⟨s2, hc, hok2, ?_, hp2, ?_⟩
    · rw [hm2]
      simp [hne, Ne.symm hne]
      omega
    · rw [hord2]
      simp [removeOrder]
  · intro s slot maker mta amount exp ebal mt hf hesc hmta hmmint hmown
      hne ha hs he hcap hbal hfit hm64
    have hc := createOrder_dir0_eq hf hesc hmta hmmint hmown hne ha hs he
      hcap hbal hfit
    refine ⟨{ setToken
        (setToken s mta { mt with amount := mt.amount - amount })
        (AccountId.escrowPda maker amount)
        ⟨SGOR_MINT, AccountId.orderPda maker amount, ebal + amount⟩ with
      orders := ⟨maker, amount, 0, exp, false, 255⟩ :: s.orders,
      events := Event.orderCreated maker amount 0 exp :: s.events }, ?_⟩
    have hfind1 : findOrder maker amount
        ((⟨maker, amount, 0, exp, false, 255⟩ : Order) :: s.orders) =
        some ⟨maker, amount, 0, exp, false, 255⟩ := by
      simp [findOrder]
    obtain ⟨s2, hok2, hm2, he2, hord2, hev2⟩ :=
      cancelOrder_dir0_eq { setToken
          (setToken s mta { mt with amount := mt.amount - amount })
          (AccountId.escrowPda maker amount)
          ⟨SGOR_MINT, AccountId.orderPda maker amount, ebal + amount⟩ with
        orders := ⟨maker, amount, 0, exp, false, 255⟩ :: s.orders,
        events := Event.orderCreated maker amount 0 exp :: s.events }
        maker amount
        ⟨maker, amount, 0, exp, false, 255⟩
        (AccountId.escrowPda maker amount) mta
        ⟨SGOR_MINT, AccountId.orderPda maker amount, ebal + amount⟩
        { mt with amount := mt.amount - amount }
        hfind1 rfl rfl (by simp) rfl (by simp [hne]) hmmint.symm
        (Nat.le_add_left amount ebal)
        (by simp; omega) (Ne.symm hne)
    refine ⟨s2, hc, hok2, ?_, ?_, ?_⟩
    · rw [hm2]
      have : mt.amount - amount + amount = mt.amount :=
        Nat.sub_add_cancel hbal
      simp [this]
    · rw [he2]
      simp
    · rw [hord2]
      simp [removeOrder]

end Bridge

namespace Bridge

theorem create_cancel_roundtrip_witness :
    (∃ s1 s2,
      createOrder witBase 10 (AccountId.user 1) false none 1000000 1 110 =
        Except.ok s1 ∧
      cancelOrder s1 (AccountId.user 1) (AccountId.user 1) 1000000 none
        none = Except.ok s2 ∧
      s2.native (AccountId.user 1) = witBase.native (AccountId.user 1) ∧
      s2.native (AccountId.orderPda (AccountId.user 1) 1000000) = 0 ∧
      s2.orders = witBase.orders) ∧
    (∃ s1 s2,
      createOrder witBase0 10 (AccountId.user 1) true
        (some (AccountId.user 20)) 1000000 0 110 = Except.ok s1 ∧
      cancelOrder s1 (AccountId.user 1) (AccountId.user 1) 1000000
        (some (AccountId.escrowPda (AccountId.user 1) 1000000))
        (some (AccountId.user 20)) = Except.ok s2 ∧
      s2.token (AccountId.user 20) =
        some ⟨SGOR_MINT, AccountId.user 1, 2000000⟩ ∧
      s2.token (AccountId.escrowPda (AccountId.user 1) 1000000) =
        some ⟨SGOR_MINT, AccountId.orderPda (AccountId.user 1) 1000000,
          3⟩ ∧
      s2.orders = witBase0.orders) :=
  ⟨create_cancel_roundtrip.1 witBase 10 (AccountId.user 1) 1000000 110
      rfl (by decide) (by decide) (by decide) (by decide) (by decide)
      (by decide) (by decide) (by decide),
   create_cancel_roundtrip.2 witBase0 10 (AccountId.user 1)
      (AccountId.user 20) 1000000 110 3
      ⟨SGOR_MINT, AccountId.user 1, 2000000⟩ rfl rfl rfl rfl rfl
      (by decide) (by decide) (by decide) (by decide) (by decide)
      (by decide) (by decide) (by decide)⟩

end Bridge

namespace Bridge

/-- C1: for every successful fill, both legs of the swap happen together
with exactly the order amount, and the order is destroyed with one
`OrderFilled` emission.  Direction 0: the taker's native balance (the
counter-asset) drops by `amount` and the maker's rises by `amount` —
delivered directly, not through the vault — while the escrow token
account releases `amount` sGOR to the taker's receive account.
Direction 1: the taker's sGOR (counter-asset) goes directly to the
maker's receive account while the order PDA's escrowed lamports drop to
zero and the taker's native balance rises by `amount`.  A failed leg
yields an error result, which carries no state, so neither leg's effect
is retained. -/
theorem fill_swap_atomic :
    (∀ (s s' : BState) (slot : Nat) (taker om : AccountId) (oa : Nat)
        (eta tra : AccountId) (tTa mrTa : Option AccountId) (o : Order)
        (ea ra : TokenAcct),
      findOrder om oa s.orders = some o →
      o.direction = 0 →
      taker ≠ o.maker →
      AccountId.orderPda o.maker o.amount ≠ taker →
      AccountId.orderPda o.maker o.amount ≠ o.maker →
      s.native (AccountId.orderPda o.maker o.amount) = 0 →
      eta ≠ tra →
      s.token eta = some ea →
      s.token tra = some ra →
      fillOrder s slot taker o.maker om oa (some eta) tTa (some tra)
        mrTa = Except.ok s' →
      (o.amount ≤ s.native taker ∧
       s'.native taker = s.native taker - o.amount ∧
       s'.native o.maker = s.native o.maker + o.amount ∧
       o.amount ≤ ea.amount ∧
       s'.token eta = some { ea with amount := ea.amount - o.amount } ∧
       s'.token tra = some { ra with amount := ra.amount + o.amount } ∧
       s'.orders = removeOrder om oa s.orders ∧
       s'.events = Event.orderFilled o.maker taker o.amount o.direction ::
         s.events)) ∧
    (∀ (s s' : BState) (slot : Nat) (taker om : AccountId) (oa : Nat)
        (tta mra : AccountId) (eTa trTa : Option AccountId) (o : Order)
        (ta ma : TokenAcct),
      findOrder om oa s.orders = some o →
      o.direction = 1 →
      taker ≠ o.maker →
      AccountId.orderPda o.maker o.amount ≠ taker →
      AccountId.orderPda o.maker o.amount ≠ o.maker →
      s.native (AccountId.orderPda o.maker o.amount) = o.amount →
      tta ≠ mra →
      s.token tta = some ta →
      s.token mra = some ma →
      fillOrder s slot taker o.maker om oa eTa (some tta) trTa
        (some mra) = Except.ok s' →
      (o.amount ≤ ta.amount ∧
       s'.token tta = some { ta with amount := ta.amount - o.amount } ∧
       s'.token mra = some { ma with amount := ma.amount + o.amount } ∧
       s'.native taker = s.native taker + o.amount ∧
       s'.native (AccountId.orderPda o.maker o.amount) = 0 ∧
       s'.native o.maker = s.native o.maker ∧
       s'.orders = removeOrder om oa s.orders ∧
       s'.events = Event.orderFilled o.maker taker o.amount o.direction ::
         s.events)) := by
  constructor
  · intro s s' slot taker om oa eta tra tTa mrTa o ea ra hfind hdir htm
      hpt hpm hpda0 hetra hea hra hok
    simp only [fillOrder, hfind] at hok
    rw [if_neg (by simp)] at hok
    split at hok
    · cases hok
    · split at hok
      · cases hok
      · split at hok
        · cases hok
        next s1 hlegs =>
          cases hok
          simp only [fillLegs, hdir, if_pos] at hlegs
          split at hlegs
          next e hsys => cases hlegs
          next s0 hsys =>
            obtain ⟨hle, hs0⟩ := sysTransfer_ok_inv hsys
            subst hs0
            obtain ⟨sa, da1, hsa, hown, hble, hda1, hs1⟩ :=
              splTransfer_ok_inv hlegs
            have hsa2 : sa = ea := by
              simp only [setNative_token] at hsa
              rw [hea] at hsa
              exact (Option.some_inj.mp hsa).symm
            subst hsa2
            have hda2 : da1 = ra := by
              simp only [setToken_token, setNative_token] at hda1
              rw [if_neg (Ne.symm hetra), hra] at hda1
              exact (Option.some_inj.mp hda1).symm
            subst hda2
            subst hs1
            refine ⟨hle, ?_, ?_, hble, ?_, ?_, rfl, rfl⟩
            · simp [closeTo, htm, hpt, Ne.symm hpt]
            · simp [closeTo, htm, Ne.symm htm, hpt, hpm, Ne.symm hpm,
                hpda0]
            · simp [hetra]
            · simp
  · intro s s' slot taker om oa tta mra eTa trTa o ta ma hfind hdir htm
      hpt hpm hpda httm hta hma hok
    simp only [fillOrder, hfind] at hok
    rw [if_neg (by simp)] at hok
    split at hok
    · cases hok
    · split at hok
      · cases hok
      · split at hok
        · cases hok
        next s1 hlegs =>
          cases hok
          simp only [fillLegs, hdir] at hlegs
          rw [if_neg (by decide), if_pos (by trivial)] at hlegs
          · simp only [hta] at hlegs
            split at hlegs
            · cases hlegs
            · split at hlegs
              next e hspl => cases hlegs
              next s0 hspl =>
                obtain ⟨sa, da1, hsa, hown, hble, hda1, hs0⟩ :=
                  splTransfer_ok_inv hspl
                have hsa2 : sa = ta := by
                  rw [hta] at hsa
                  exact (Option.some_inj.mp hsa).symm
                subst hsa2
                have hda2 : da1 = ma := by
                  simp only [setToken_token] at hda1
                  rw [if_neg (Ne.symm httm), hma] at hda1
                  exact (Option.some_inj.mp hda1).symm
                subst hda2
                subst hs0
                obtain ⟨hle2, hs1⟩ := rawLamportMove_ok_inv hlegs
                subst hs1
                refine ⟨hble, ?_, ?_, ?_, ?_, ?_, rfl, rfl⟩
                · simp [closeTo, httm]
                · simp [closeTo]
                · simp [closeTo, htm, Ne.symm htm, hpt, Ne.symm hpt]
                · simp [closeTo, hpt, hpm]
                · simp [closeTo, htm, Ne.symm htm, hpt, hpm, Ne.symm hpm,
                    hpda]

end Bridge

namespace Bridge

theorem fill_swap_atomic_witness :
    (1000000 ≤ witD0.native (AccountId.user 2) ∧
     witD0Filled.native (AccountId.user 2) =
       witD0.native (AccountId.user 2) - 1000000 ∧
     witD0Filled.native (AccountId.user 1) =
       witD0.native (AccountId.user 1) + 1000000 ∧
     1000000 ≤ 1000000 ∧
     witD0Filled.token (AccountId.escrowPda (AccountId.user 1) 1000000) =
       some ⟨SGOR_MINT, AccountId.orderPda (AccountId.user 1) 1000000,
         1000000 - 1000000⟩ ∧
     witD0Filled.token (AccountId.user 12) =
       some ⟨SGOR_MINT, AccountId.user 2, 5 + 1000000⟩ ∧
     witD0Filled.orders =
       removeOrder (AccountId.user 1) 1000000 witD0.orders ∧
     witD0Filled.events =
       Event.orderFilled (AccountId.user 1) (AccountId.user 2) 1000000 0 ::
         witD0.events) ∧
    (1000000 ≤ 2000000 ∧
     witD1Filled.token (AccountId.user 10) =
       some ⟨SGOR_MINT, AccountId.user 2, 2000000 - 1000000⟩ ∧
     witD1Filled.token (AccountId.user 11) =
       some ⟨SGOR_MINT, AccountId.user 1, 0 + 1000000⟩ ∧
     witD1Filled.native (AccountId.user 2) =
       witD1.native (AccountId.user 2) + 1000000 ∧
     witD1Filled.native (AccountId.orderPda (AccountId.user 1) 1000000) =
       0 ∧
     witD1Filled.native (AccountId.user 1) =
       witD1.native (AccountId.user 1) ∧
     witD1Filled.orders =
       removeOrder (AccountId.user 1) 1000000 witD1.orders ∧
     witD1Filled.events =
       Event.orderFilled (AccountId.user 1) (AccountId.user 2) 1000000 1 ::
         witD1.events) :=
  ⟨fill_swap_atomic.1 witD0 witD0Filled 50 (AccountId.user 2)
      (AccountId.user 1) 1000000
      (AccountId.escrowPda (AccountId.user 1) 1000000)
      (AccountId.user 12) none none
      ⟨AccountId.user 1, 1000000, 0, 110, false, 255⟩
      ⟨SGOR_MINT, AccountId.orderPda (AccountId.user 1) 1000000, 1000000⟩
      ⟨SGOR_MINT, AccountId.user 2, 5⟩ rfl rfl (by decide) (by decide)
      (by decide) rfl (by decide) rfl rfl rfl,
   fill_swap_atomic.2 witD1 witD1Filled 50 (AccountId.user 2)
      (AccountId.user 1) 1000000 (AccountId.user 10) (AccountId.user 11)
      none none ⟨AccountId.user 1, 1000000, 1, 110, false, 255⟩
      ⟨SGOR_MINT, AccountId.user 2, 2000000⟩
      ⟨SGOR_MINT, AccountId.user 1, 0⟩ rfl rfl (by decide) (by decide)
      (by decide) rfl (by decide) rfl rfl rfl⟩

end Bridge
